import Mathlib

/-!
Shallow embedding of the sponsorship-system server core (`server.js` and the
second server variant, whose core functions are textually identical):
the spreadsheet-style formula evaluator, the per-student financial
calculator, the aggregate metadata recalculator, and the list-level bodies
of the student / sponsor / expense mutation routes.

JavaScript numbers are modelled as exact rationals (`ℚ`); machine floating
point is not modelled.  JSON-style values are `JsVal` (number, string or
null); absent object properties are `Option`/lookup failures.  JavaScript
exceptions (e.g. `Object.entries(undefined)`) are modelled by `Option`
results, `none` meaning the function throws.
-/

namespace SponsorSystem

/-- `EXCHANGE_RATE` constant from the server: 1 EUR = 4100 UGX. -/
def EXCHANGE_RATE : ℚ := 4100

/-- A JSON-ish JavaScript value as stored in a financial-data record:
a number, a string, or null (null also stands for `undefined` values). -/
inductive JsVal where
  | num (q : ℚ)
  | str (s : String)
  | null
deriving DecidableEq

/-- A JavaScript object holding financial data: an insertion-ordered list of
key/value pairs (JavaScript objects cannot hold duplicate keys; where a proof
needs that fact it carries an explicit `Nodup` hypothesis). -/
abbrev FinData := List (String × JsVal)

/-- Property read `r[k]`: the first entry with key `k`, if any. -/
def findVal (k : String) (r : FinData) : Option JsVal :=
  (r.find? (fun p => p.1 == k)).map (fun p => p.2)

/-- Property write `r[k] = v`: replaces the (first) entry with key `k` in
place, or appends a new entry, as JavaScript assignment does. -/
def setField (r : FinData) (k : String) (v : JsVal) : FinData :=
  match r with
  | [] => [(k, v)]
  | (k', v') :: rest =>
    if k' == k then (k', v) :: rest else (k', v') :: setField rest k v

/-- The key list of a record, in insertion order (`Object.keys`). -/
def keysOf (r : FinData) : List String := r.map (fun p => p.1)

/-- Numeric read `r.k || 0` on a record whose relevant values are numbers
(as they are after normalization): the numeric value, or 0 when the
property is missing or not a number. -/
def getQ (r : FinData) (k : String) : ℚ :=
  match findVal k r with
  | some (JsVal.num q) => q
  | _ => 0

/-! ### Decimal digit strings -/

/-- Value of a big-endian decimal digit string, accumulated left to right. -/
def charsVal (ds : List Char) (acc : ℕ) : ℕ :=
  ds.foldl (fun a c => a * 10 + (c.toNat - 48)) acc

/-- Consume a maximal run of decimal digits, returning the accumulated
value and the remaining characters. -/
def lexNat : List Char → ℕ → ℕ × List Char
  | [], acc => (acc, [])
  | c :: cs, acc =>
    if c.isDigit then lexNat cs (acc * 10 + (c.toNat - 48)) else (acc, c :: cs)

/-- Fuel-driven big-endian decimal rendering of a positive natural. -/
def toDigitsAux : ℕ → ℕ → List Char
  | 0, _ => []
  | f + 1, n =>
    if n = 0 then [] else toDigitsAux f (n / 10) ++ [Nat.digitChar (n % 10)]

/-- Decimal rendering of a natural number (as JavaScript `String(n)`). -/
def renderNatChars (n : ℕ) : List Char :=
  if n = 0 then ['0'] else toDigitsAux n n

/-- Decimal rendering of an integer (as JavaScript `String(i)`). -/
def renderInt (i : ℤ) : List Char :=
  if i < 0 then '-' :: renderNatChars i.natAbs else renderNatChars i.natAbs

/-- Rendering of a rational JavaScript number into an expression string.
Integral values render as their decimal numeral, exactly as JavaScript
`String(n)` does; non-integral values render as a parenthesised exact
fraction, which evaluates to the same rational in an arithmetic context
(JavaScript prints a float decimal instead; the server's data only ever
substitutes integral values in the scenarios the specification fixes). -/
def renderQ (q : ℚ) : List Char :=
  if q.den = 1 then renderInt q.num
  else '(' :: (renderInt q.num ++ '/' :: (renderNatChars q.den ++ [')']))

/-! ### `parseFloat` -/

/-- Consume an optional leading sign, returning whether it was `-`. -/
def parseSign : List Char → Bool × List Char
  | '-' :: cs => (true, cs)
  | '+' :: cs => (false, cs)
  | cs => (false, cs)

/-- Apply a trailing `e`/`E` exponent part, if present, to a parsed
mantissa, as `parseFloat` does (an `e` not followed by digits is ignored). -/
def applyExponent (q : ℚ) (cs : List Char) : ℚ :=
  match cs with
  | 'e' :: rest =>
    let (eneg, rest2) := parseSign rest
    (match rest2 with
     | d :: ds =>
       if d.isDigit then
         let (k, _) := lexNat ds (d.toNat - 48)
         if eneg then q / 10 ^ k else q * 10 ^ k
       else q
     | [] => q)
  | 'E' :: rest =>
    let (eneg, rest2) := parseSign rest
    (match rest2 with
     | d :: ds =>
       if d.isDigit then
         let (k, _) := lexNat ds (d.toNat - 48)
         if eneg then q / 10 ^ k else q * 10 ^ k
       else q
     | [] => q)
  | _ => q

/-- JavaScript `parseFloat` on a character sequence: skip whitespace, then
parse the longest prefix that is a (signed) decimal literal with optional
fraction and exponent; `none` when no digits can be parsed (JS `NaN`). -/
def parseFloatPrefix (cs : List Char) : Option ℚ :=
  let cs := cs.dropWhile (fun c => c.isWhitespace)
  let (neg, cs) := parseSign cs
  match cs with
  | c :: cs' =>
    if c.isDigit then
      let (n, rest) := lexNat cs' (c.toNat - 48)
      let (q, rest2) : ℚ × List Char :=
        match rest with
        | '.' :: cs2 =>
          let (m, r2) := lexNat cs2 0
          let k := cs2.length - r2.length
          ((n : ℚ) + (m : ℚ) / 10 ^ k, r2)
        | _ => ((n : ℚ), rest)
      let q := applyExponent q rest2
      some (if neg then -q else q)
    else if c = '.' then
      match cs' with
      | d :: _ =>
        if d.isDigit then
          let (m, r2) := lexNat cs' 0
          let k := cs'.length - r2.length
          let q := applyExponent ((m : ℚ) / 10 ^ k) r2
          some (if neg then -q else q)
        else none
      | [] => none
    else none
  | [] => none

/-- `parseFloat(v) || 0` on a possibly-missing JavaScript value:
numbers pass through (`parseFloat(String(x)) = x` for finite `x`), strings
are prefix-parsed, and `null`/missing give `NaN`, hence 0. -/
def parseFloatOr0 : Option JsVal → ℚ
  | some (JsVal.num q) => q
  | some (JsVal.str s) => (parseFloatPrefix s.data).getD 0
  | some JsVal.null => 0
  | none => 0

/-! ### The formula evaluator's string rewrites -/

/-- `v || 0` on a possibly-missing value: falsy values (missing, null,
0, the empty string) are replaced by the number 0. -/
def jsOr0 : Option JsVal → JsVal
  | none => JsVal.num 0
  | some JsVal.null => JsVal.num 0
  | some (JsVal.num q) => if q = 0 then JsVal.num 0 else JsVal.num q
  | some (JsVal.str s) => if s = "" then JsVal.num 0 else JsVal.str s

/-- JavaScript string coercion of a value spliced into an expression. -/
def jsToString : JsVal → List Char
  | JsVal.num q => renderQ q
  | JsVal.str s => s.data
  | JsVal.null => "null".data

/-- Replace every (non-overlapping, left-to-right) occurrence of `pat` by
`rep`, as `String.replace(new RegExp(literal, 'g'), rep)` does. -/
def replaceAllAux (pat rep : List Char) : ℕ → List Char → List Char
  | _, [] => []
  | 0, cs => cs
  | f + 1, c :: cs =>
    if pat.isPrefixOf (c :: cs) then
      rep ++ replaceAllAux pat rep f ((c :: cs).drop pat.length)
    else c :: replaceAllAux pat rep f cs

/-- All-occurrence replacement of a nonempty literal pattern. -/
def replaceAll (cs pat rep : List Char) : List Char :=
  replaceAllAux pat rep cs.length cs

/-- The regex rewrite `/(\d+)%/g → '$1/100'`: every `%` that immediately
follows a digit becomes `/100` (replacements are not rescanned). -/
def percentRewriteAux : Bool → List Char → List Char
  | _, [] => []
  | lastDigit, c :: cs =>
    if c = '%' then
      if lastDigit then '/' :: '1' :: '0' :: '0' :: percentRewriteAux false cs
      else c :: percentRewriteAux false cs
    else c :: percentRewriteAux c.isDigit cs

/-- The percent rewrite, started with no preceding digit. -/
def percentRewrite (cs : List Char) : List Char := percentRewriteAux false cs

/-- Split at the first `)`: the characters before it and those after.
`none` when there is no `)`. -/
def splitAtRParen : List Char → Option (List Char × List Char)
  | [] => none
  | ')' :: after => some ([], after)
  | c :: rest => (splitAtRParen rest).map (fun p => (c :: p.1, p.2))

/-- `range.split(':').reduce((sum, part) => sum + (parseFloat(data[part]) || 0), 0)`:
the literal colon-separated parts are looked up as field names in `data`
(no true range expansion). -/
def sumParts (data : FinData) (content : List Char) : ℚ :=
  ((String.mk content).splitOn ":").foldl
    (fun s part => s + parseFloatOr0 (findVal part data)) 0

/-- The regex rewrite `/SUM\(([^)]+)\)/g`: each `SUM(`…`)` group with a
nonempty body before the first `)` is replaced by the rendered sum of its
parts' field values; anything else is copied unchanged. -/
def sumRewriteAux (data : FinData) : ℕ → List Char → List Char
  | 0, cs => cs
  | _ + 1, [] => []
  | f + 1, c :: rest =>
    if c = 'S' ∧ rest.take 3 = ['U', 'M', '('] then
      (match splitAtRParen (rest.drop 3) with
       | some (content, after) =>
         if content = [] then c :: sumRewriteAux data f rest
         else renderQ (sumParts data content) ++ sumRewriteAux data f after
       | none => c :: sumRewriteAux data f rest)
    else c :: sumRewriteAux data f rest

/-! ### Constrained arithmetic expression evaluation

The server feeds the rewritten expression to the JavaScript `Function`
constructor (general expression execution).  Modelled from the spec:
§4.1/§7 require a constrained arithmetic-expression evaluator over numbers,
`+ - * /` and parentheses (with unary sign), failures yielding 0; general
JavaScript evaluation is not shallowly embeddable.  On purely arithmetic
expressions over exact integers — the only expressions the specification's
scenarios produce — this evaluator agrees with the JavaScript engine. -/

/-- Tokens of the arithmetic expression grammar. -/
inductive Token where
  | num (q : ℚ)
  | plus
  | minus
  | star
  | slash
  | lparen
  | rparen
deriving DecidableEq

/-- Tokenizer for the arithmetic grammar: decimal numerals (with optional
fraction), the four operators, parentheses and spaces; any other character
is a syntax error (`none`). -/
def tokenizeAux : ℕ → List Char → Option (List Token)
  | 0, [] => some []
  | 0, _ :: _ => none
  | _ + 1, [] => some []
  | f + 1, c :: cs =>
    if c = ' ' then tokenizeAux f cs
    else if c.isDigit then
      let pr := lexNat cs (c.toNat - 48)
      if pr.2.head? = some '.' then
        let cs2 := pr.2.tail
        let pm := lexNat cs2 0
        let k := cs2.length - pm.2.length
        (tokenizeAux f pm.2).map (fun ts => Token.num ((pr.1 : ℚ) + (pm.1 : ℚ) / 10 ^ k) :: ts)
      else (tokenizeAux f pr.2).map (fun ts => Token.num (pr.1 : ℚ) :: ts)
    else if c = '.' then
      if (cs.head?.map Char.isDigit).getD false then
        let pm := lexNat cs 0
        let k := cs.length - pm.2.length
        (tokenizeAux f pm.2).map (fun ts => Token.num ((pm.1 : ℚ) / 10 ^ k) :: ts)
      else none
    else if c = '+' then (tokenizeAux f cs).map (fun ts => Token.plus :: ts)
    else if c = '-' then (tokenizeAux f cs).map (fun ts => Token.minus :: ts)
    else if c = '*' then (tokenizeAux f cs).map (fun ts => Token.star :: ts)
    else if c = '/' then (tokenizeAux f cs).map (fun ts => Token.slash :: ts)
    else if c = '(' then (tokenizeAux f cs).map (fun ts => Token.lparen :: ts)
    else if c = ')' then (tokenizeAux f cs).map (fun ts => Token.rparen :: ts)
    else none

/-- Nonterminals of the recursive-descent arithmetic grammar:
expression (`+`/`-` level), its left-recursion loop, term (`*`/`/` level),
its loop, and factor (numeral, unary sign, parenthesised expression). -/
inductive PK where
  | expr
  | exprSfx
  | term
  | termSfx
  | factor

/-- Fuel-driven recursive-descent evaluator for the arithmetic grammar.
Returns the value of the longest parse from the front together with the
unconsumed tokens.  The accumulator argument is used by the two loop
nonterminals and ignored by the others. -/
def parseGo : ℕ → PK → ℚ → List Token → Option (ℚ × List Token)
  | 0, _, _, _ => none
  | f + 1, PK.expr, _, ts =>
    (parseGo f PK.term 0 ts).bind (fun vr => parseGo f PK.exprSfx vr.1 vr.2)
  | f + 1, PK.exprSfx, acc, ts =>
    match ts with
    | Token.plus :: r =>
      (parseGo f PK.term 0 r).bind (fun vr => parseGo f PK.exprSfx (acc + vr.1) vr.2)
    | Token.minus :: r =>
      (parseGo f PK.term 0 r).bind (fun vr => parseGo f PK.exprSfx (acc - vr.1) vr.2)
    | _ => some (acc, ts)
  | f + 1, PK.term, _, ts =>
    (parseGo f PK.factor 0 ts).bind (fun vr => parseGo f PK.termSfx vr.1 vr.2)
  | f + 1, PK.termSfx, acc, ts =>
    match ts with
    | Token.star :: r =>
      (parseGo f PK.factor 0 r).bind (fun vr => parseGo f PK.termSfx (acc * vr.1) vr.2)
    | Token.slash :: r =>
      (parseGo f PK.factor 0 r).bind (fun vr => parseGo f PK.termSfx (acc / vr.1) vr.2)
    | _ => some (acc, ts)
  | f + 1, PK.factor, _, ts =>
    match ts with
    | Token.num q :: r => some (q, r)
    | Token.minus :: r => (parseGo f PK.factor 0 r).map (fun vr => (-vr.1, vr.2))
    | Token.plus :: r => parseGo f PK.factor 0 r
    | Token.lparen :: r =>
      (match parseGo f PK.expr 0 r with
       | some (v, Token.rparen :: r2) => some (v, r2)
       | _ => none)
    | _ => none

/-- Evaluate a whole character sequence as one arithmetic expression;
`none` on any syntax error or leftover input. -/
def arithEval (cs : List Char) : Option ℚ :=
  match tokenizeAux cs.length cs with
  | some ts =>
    (match parseGo (4 * ts.length + 4) PK.expr 0 ts with
     | some (v, []) => some v
     | _ => none)
  | none => none

/-! ### `evaluateFormula` -/

/-- The fixed substitution table of `evaluateFormula`, in the order the
server iterates it: each cell-reference pattern with the rendered current
value (`data.field || 0`) it is replaced by. -/
def formulaSubstitutions (data : FinData) : List (List Char × List Char) :=
  [ (("$E$3" : String).data, jsToString (jsOr0 (findVal "termly_school_fees" data)))
  , (("$D$3" : String).data, jsToString (jsOr0 (findVal "termly_school_fees" data)))
  , (("D3" : String).data, jsToString (jsOr0 (findVal "termly_school_fees" data)))
  , (("E3" : String).data, jsToString (jsOr0 (findVal "direct_spending_school_fees_ugx_monthly" data)))
  , (("F3" : String).data, jsToString (jsOr0 (findVal "direct_spending_school_fees_euros_monthly" data)))
  , (("G3" : String).data, jsToString (jsOr0 (findVal "food" data)))
  , (("H3" : String).data, jsToString (jsOr0 (findVal "average_medical" data)))
  , (("I3" : String).data, jsToString (jsOr0 (findVal "school_personal_requirements_transport" data)))
  , (("J3" : String).data, jsToString (jsOr0 (findVal "admin_utilities" data))) ]

/-- `evaluateFormula(formula, data)`: strip the leading `=`, substitute the
fixed cell-reference table, rewrite `N%` to `N/100` and `SUM(a:b)` to the
summed field values, then evaluate the arithmetic expression; any failure
(or non-numeric result) yields 0. -/
def evaluateFormula (formula : String) (data : FinData) : ℚ :=
  let expr := formula.data.drop 1
  let expr := (formulaSubstitutions data).foldl (fun e p => replaceAll e p.1 p.2) expr
  let expr := percentRewrite expr
  let expr := sumRewriteAux data expr.length expr
  match arithEval expr with
  | some q => q
  | none => 0

/-! ### `calculateStudentFinancials` -/

/-- One step of the value-normalization loop: formula strings are resolved
against the current (partially normalized) record, null/undefined becomes 0,
other strings are `parseFloat`ed (failure → 0), numbers pass through. -/
def normalizeStep (r : FinData) (k : String) : FinData :=
  match findVal k r with
  | some (JsVal.str s) =>
    (match s.data with
     | c :: _ =>
       if c = '=' then setField r k (JsVal.num (evaluateFormula s r))
       else setField r k (JsVal.num ((parseFloatPrefix s.data).getD 0))
     | [] => setField r k (JsVal.num ((parseFloatPrefix s.data).getD 0)))
  | some JsVal.null => setField r k (JsVal.num 0)
  | some (JsVal.num _) => r
  | none => setField r k (JsVal.num 0)

/-- The `Object.keys(result).forEach` normalization pass: every field of the
record is coerced to a number, in key insertion order, formulas seeing the
partially-coerced record. -/
def normalizeRec (r : FinData) : FinData :=
  (keysOf r).foldl normalizeStep r

/-- `calculateStudentFinancials`: normalize every field to a number, then
derive monthly output, euro equivalents, cash received and the balance. -/
def calculateStudentFinancials (fd : FinData) : FinData :=
  let r := normalizeRec fd
  let termlyFeesMonthly := getQ r "termly_school_fees" / 3
  let directSpending := getQ r "direct_spending_school_fees_ugx_monthly"
  let food := getQ r "food"
  let medical := getQ r "average_medical"
  let transport := getQ r "school_personal_requirements_transport"
  let admin := getQ r "admin_utilities"
  let r := setField r "monthly_output_ugx"
    (JsVal.num (termlyFeesMonthly + directSpending + food + medical + transport + admin))
  let r := setField r "monthly_output_euro" (JsVal.num (getQ r "monthly_output_ugx" / EXCHANGE_RATE))
  let r := setField r "cash_received_ugx" (JsVal.num (getQ r "cash_received_euro" * EXCHANGE_RATE))
  let r := setField r "plus_minus_diff_ugx"
    (JsVal.num (getQ r "cash_received_ugx" - getQ r "monthly_output_ugx"))
  let r := setField r "plus_minus_diff_euro" (JsVal.num (getQ r "plus_minus_diff_ugx" / EXCHANGE_RATE))
  r

/-- The object spread merge `{ ...a, ...b }`: `a`'s keys in order with `b`'s
values where present, then `b`'s remaining entries in their order. -/
def mergeRec (a b : FinData) : FinData :=
  a.map (fun p => (p.1, (findVal p.1 b).getD p.2)) ++
    b.filter (fun p => (findVal p.1 a).isNone)

/-! ### The dataset -/

/-- A student record of a sponsorship program.  `financial_data` is `none`
when the property is absent. -/
structure Student where
  serial_number : ℤ
  full_name : String
  sponsorship_package : Option String
  financial_data : Option FinData
  notes : Option String
deriving DecidableEq

/-- Derived program metadata. -/
structure ProgMeta where
  total_students : ℕ
  sponsorship_types : List (String × ℕ)
  monthly_costs_ugx : ℚ
  monthly_costs_eur : ℚ
deriving DecidableEq

/-- A sponsorship program: display name, optional student list, optional
derived metadata (`none` models an absent property). -/
structure Program where
  program_name : String
  students : Option (List Student)
  metadata : Option ProgMeta
deriving DecidableEq

/-- A sponsor record of a registry.  `amount` may be a number or a string
(or absent); `sponsorship_status` is a string or absent. -/
structure Sponsor where
  cid : ℤ
  full_name : String
  sponsor_name : Option String
  amount : Option JsVal
  sponsorship_status : Option String
  category : Option String
  start_date : Option String
  notes : Option String
deriving DecidableEq

/-- Derived registry metadata. -/
structure RegMeta where
  total_students : ℕ
  active_students : ℕ
  inactive_students : ℕ
  total_monthly_funding : ℚ
deriving DecidableEq

/-- A per-program sponsor registry. -/
structure Registry where
  students : Option (List Sponsor)
  metadata : Option RegMeta
deriving DecidableEq

/-- The database-wide `programs_summary`. -/
structure Summary where
  total_students_across_all_programs : ℕ
  total_active_sponsorships : ℕ
  total_monthly_funding_euros : ℚ
  total_monthly_funding_ugx : ℚ
deriving DecidableEq

/-- Top-level database metadata: raw import info plus the derived summary. -/
structure DbMeta where
  source_files : List String
  extraction_date : String
  programs_summary : Summary
deriving DecidableEq

/-- A daily-expense record (`id` is always present once stored). -/
structure Expense where
  id : ℤ
  date : Option String
  student : Option String
  description : Option String
  category : Option String
  amount : Option JsVal
  currency : String
deriving DecidableEq

/-- The whole dataset.  The three top-level objects the recalculator
dereferences unconditionally are `Option`s: `none` models the property
being absent, on which the JavaScript code throws. -/
structure Database where
  sponsorship_programs : Option (List (String × Program))
  sponsorship_registry : Option (List (String × Registry))
  daily_expenses : Option (List Expense)
  metadata : Option DbMeta
deriving DecidableEq

/-! ### `recalculateAllMetadata` -/

/-- Add one occurrence of `k` to an insertion-ordered histogram, as
`h[k] = (h[k] || 0) + 1` does on a JavaScript object. -/
def histAdd (h : List (String × ℕ)) (k : String) : List (String × ℕ) :=
  match h with
  | [] => [(k, 1)]
  | (k', n) :: rest => if k' == k then (k', n + 1) :: rest else (k', n) :: histAdd rest k

/-- The sponsorship-package histogram of a student list; an absent package
indexes the object with the key `"undefined"`, as JavaScript does. -/
def sponsorshipTypes (studs : List Student) : List (String × ℕ) :=
  (studs.map (fun s => s.sponsorship_package.getD "undefined")).foldl histAdd []

/-- The recalculated financials of one student:
`calculateStudentFinancials(student.financial_data || {})`. -/
def studentFinancials (s : Student) : FinData :=
  calculateStudentFinancials (s.financial_data.getD [])

/-- A student's derived monthly output in UGX. -/
def studentMonthly (s : Student) : ℚ :=
  getQ (studentFinancials s) "monthly_output_ugx"

/-- `student.financial_data = { ...student.financial_data, ...financials }`. -/
def updStudent (s : Student) : Student :=
  { s with financial_data := some (mergeRec (s.financial_data.getD []) (studentFinancials s)) }

/-- The per-program pass of the recalculator: programs without a `students`
array are skipped entirely; otherwise the metadata is rebuilt and every
student's financial data is recalculated and merged back. -/
def processProgram (p : Program) : Program :=
  match p.students with
  | none => p
  | some studs =>
    let cost := (studs.map studentMonthly).sum
    { p with
      students := some (studs.map updStudent)
      metadata := some
        { total_students := studs.length
          sponsorship_types := sponsorshipTypes studs
          monthly_costs_ugx := cost
          monthly_costs_eur := cost / EXCHANGE_RATE } }

/-- `s.sponsorship_status === 'active' || !s.sponsorship_status`: an absent
status and the (falsy) empty string both count as active. -/
def isActiveSponsor (s : Sponsor) : Bool :=
  match s.sponsorship_status with
  | none => true
  | some st => st == "active" || st == ""

/-- `s.sponsorship_status === 'inactive'`. -/
def isInactiveSponsor (s : Sponsor) : Bool :=
  match s.sponsorship_status with
  | none => false
  | some st => st == "inactive"

/-- `parseFloat(student.amount) || 0` for a sponsor. -/
def sponsorAmount (s : Sponsor) : ℚ := parseFloatOr0 s.amount

/-- A registry's active-sponsor monthly funding total. -/
def registryFunding (ss : List Sponsor) : ℚ :=
  ((ss.filter isActiveSponsor).map sponsorAmount).sum

/-- The per-registry pass of the recalculator: registries without a
`students` array are skipped entirely. -/
def processRegistry (r : Registry) : Registry :=
  match r.students with
  | none => r
  | some ss =>
    { r with
      metadata := some
        { total_students := ss.length
          active_students := (ss.filter isActiveSponsor).length
          inactive_students := (ss.filter isInactiveSponsor).length
          total_monthly_funding := registryFunding ss } }

/-- Students counted into the global summary by one program entry. -/
def programStudentCount (p : Program) : ℕ :=
  match p.students with
  | none => 0
  | some studs => studs.length

/-- Active sponsorships counted into the global summary by one registry. -/
def registryActiveCount (r : Registry) : ℕ :=
  match r.students with
  | none => 0
  | some ss => (ss.filter isActiveSponsor).length

/-- Funding counted into the global summary by one registry entry. -/
def registryFundingOf (r : Registry) : ℚ :=
  match r.students with
  | none => 0
  | some ss => registryFunding ss

/-- `recalculateAllMetadata(database)`: rebuild all derived program,
registry and summary metadata in place.  `none` models the `TypeError` the
JavaScript code throws when `sponsorship_programs`, `sponsorship_registry`
or the top-level `metadata` object is absent. -/
def recalculateAllMetadata (db : Database) : Option Database :=
  match db.sponsorship_programs, db.sponsorship_registry, db.metadata with
  | some progs, some regs, some meta =>
    some { db with
      sponsorship_programs := some (progs.map (fun p => (p.1, processProgram p.2)))
      sponsorship_registry := some (regs.map (fun p => (p.1, processRegistry p.2)))
      metadata := some { meta with programs_summary :=
        { total_students_across_all_programs := (progs.map (fun p => programStudentCount p.2)).sum
          total_active_sponsorships := (regs.map (fun p => registryActiveCount p.2)).sum
          total_monthly_funding_euros := (regs.map (fun p => registryFundingOf p.2)).sum
          total_monthly_funding_ugx :=
            (regs.map (fun p => registryFundingOf p.2)).sum * EXCHANGE_RATE } } }
  | _, _, _ => none

/-! ### Route bodies: deletion with renumbering -/

/-- Reassign 1-based identifiers in list order, starting at `n`. -/
def renumStudentsAux (n : ℤ) : List Student → List Student
  | [] => []
  | s :: rest => { s with serial_number := n } :: renumStudentsAux (n + 1) rest

/-- The DELETE-student route body: find the student whose `serial_number`
matches, splice it out, and reassign `serial_number = index + 1` to the
remainder; `none` is the 404 (no match) response. -/
def deleteStudentFrom (studs : List Student) (k : ℤ) : Option (List Student) :=
  match studs.findIdx? (fun s => s.serial_number == k) with
  | none => none
  | some i => some (renumStudentsAux 1 (studs.eraseIdx i))

/-- Reassign 1-based CIDs in list order, starting at `n`. -/
def renumSponsorsAux (n : ℤ) : List Sponsor → List Sponsor
  | [] => []
  | s :: rest => { s with cid := n } :: renumSponsorsAux (n + 1) rest

/-- The DELETE-sponsor route body: find the sponsor whose `cid` matches,
splice it out, and reassign `cid = index + 1` to the remainder. -/
def deleteSponsorFrom (ss : List Sponsor) (k : ℤ) : Option (List Sponsor) :=
  match ss.findIdx? (fun s => s.cid == k) with
  | none => none
  | some i => some (renumSponsorsAux 1 (ss.eraseIdx i))

/-! ### Route body: add sponsor -/

/-- An add-sponsor request body (`cid` optional: absent or 0 is falsy and
triggers auto-assignment). -/
structure SponsorReq where
  cid : Option ℤ
  full_name : String
  sponsor_name : Option String
  amount : Option JsVal
  sponsorship_status : Option String
  category : Option String
  start_date : Option String
  notes : Option String
deriving DecidableEq

/-- Outcome of the POST add-sponsor route: a successful save of the new
database, the 400 validation rejection, or a failure (a thrown `TypeError`
or a failed save — either way a 4xx/5xx response with nothing persisted). -/
inductive AddSponsorResult where
  | saved (db : Database)
  | rejected
  | failed
deriving DecidableEq

/-- Whether an add-sponsor outcome persisted a new database. -/
def AddSponsorResult.isSaved : AddSponsorResult → Bool
  | AddSponsorResult.saved _ => true
  | _ => false

/-- Assoc-list read `m[k]` on a JavaScript object modelled as an ordered
key/value list. -/
def lookupKey {α : Type} (k : String) (m : List (String × α)) : Option α :=
  (m.find? (fun p => p.1 == k)).map (fun p => p.2)

/-- Assoc-list write `m[k] = v`: replace in place or append. -/
def setKey {α : Type} (m : List (String × α)) (k : String) (v : α) : List (String × α) :=
  match m with
  | [] => [(k, v)]
  | (k', v') :: rest => if k' == k then (k', v) :: rest else (k', v') :: setKey rest k v

/-- The student list of a program:
`database.sponsorship_programs[program]?.students || []` (for a present
`sponsorship_programs` object). -/
def programStudents (progs : List (String × Program)) (prog : String) : List Student :=
  ((lookupKey prog progs).bind (fun p => p.students)).getD []

/-- The POST add-sponsor route body: ensure the program's registry exists,
auto-assign a CID when the request's is falsy, reject (400) when the named
student does not exist in the program, default status and category, push
the sponsor, and save (which runs `recalculateAllMetadata`).  Absent
objects the code dereferences produce `failed`, like the thrown
`TypeError`s and failed saves they cause. -/
def addSponsorRoute (db : Database) (prog : String) (req : SponsorReq) : AddSponsorResult :=
  match db.sponsorship_registry with
  | none => AddSponsorResult.failed
  | some regs =>
    let freshReg : Registry :=
      { students := some []
        metadata := some { total_students := 0, active_students := 0,
                           inactive_students := 0, total_monthly_funding := 0 } }
    let regs := match lookupKey prog regs with
      | none => regs ++ [(prog, freshReg)]
      | some _ => regs
    match (lookupKey prog regs).bind (fun r => r.students) with
    | none => AddSponsorResult.failed
    | some ss =>
      let cid : ℤ := match req.cid with
        | none => (ss.length : ℤ) + 1
        | some c => if c = 0 then (ss.length : ℤ) + 1 else c
      match db.sponsorship_programs with
      | none => AddSponsorResult.failed
      | some progs =>
        if (programStudents progs prog).any (fun s => s.full_name == req.full_name) then
          let sponsor : Sponsor :=
            { cid := cid
              full_name := req.full_name
              sponsor_name := req.sponsor_name
              amount := req.amount
              sponsorship_status := match req.sponsorship_status with
                | none => some "active"
                | some st => if st = "" then some "active" else some st
              category := match req.category with
                | none => some "Individual"
                | some c => if c = "" then some "Individual" else some c
              start_date := req.start_date
              notes := req.notes }
          let regs := setKey regs prog
            { students := some (ss ++ [sponsor])
              metadata := (lookupKey prog regs).bind (fun r => r.metadata) }
          match recalculateAllMetadata { db with sponsorship_registry := some regs } with
          | some db' => AddSponsorResult.saved db'
          | none => AddSponsorResult.failed
        else AddSponsorResult.rejected

/-! ### Route bodies: daily expenses -/

/-- An add-expense request body (`id` optional; 0 is falsy and triggers
auto-assignment, and `currency` defaults to `'UGX'`). -/
structure ExpenseReq where
  id : Option ℤ
  date : Option String
  student : Option String
  description : Option String
  category : Option String
  amount : Option JsVal
  currency : Option String
deriving DecidableEq

/-- The generated id for a new expense:
`daily_expenses.length > 0 ? Math.max(...ids) + 1 : 1`. -/
def newExpenseId (l : List Expense) : ℤ :=
  match l with
  | [] => 1
  | e :: rest => (rest.map (fun x => x.id)).foldl max e.id + 1

/-- The POST add-expense route body on the expense list. -/
def addExpense (l : List Expense) (r : ExpenseReq) : List Expense :=
  let id : ℤ := match r.id with
    | none => newExpenseId l
    | some i => if i = 0 then newExpenseId l else i
  l ++ [{ id := id
          date := r.date
          student := r.student
          description := r.description
          category := r.category
          amount := r.amount
          currency := match r.currency with
            | none => "UGX"
            | some c => if c = "" then "UGX" else c }]

/-- The DELETE-expense route body: splice out the first expense whose `id`
matches, with no renumbering; `none` is the 404 response (list unchanged). -/
def deleteExpense (l : List Expense) (k : ℤ) : Option (List Expense) :=
  (l.findIdx? (fun e => e.id == k)).map (fun i => l.eraseIdx i)

/-- One expense-collection operation: an add (with no id supplied, so the
route auto-assigns one) or a delete by id. -/
inductive ExpOp where
  | add (date student description category : Option String) (amount : Option JsVal)
      (currency : Option String)
  | del (k : ℤ)

/-- Apply one expense operation to the stored list (a failed delete leaves
the list unchanged, as the 404 route path saves nothing). -/
def applyExpOp (l : List Expense) : ExpOp → List Expense
  | ExpOp.add d s de c a cu =>
    addExpense l { id := none, date := d, student := s, description := de,
                   category := c, amount := a, currency := cu }
  | ExpOp.del k => (deleteExpense l k).getD l

/-- Apply a sequence of expense operations, oldest first. -/
def applyExpOps (l : List Expense) (ops : List ExpOp) : List Expense :=
  ops.foldl applyExpOp l

/-! ### Wellformedness and spec-side predicates -/

/-- Whether a value is a JavaScript number. -/
def isNumV : JsVal → Bool
  | JsVal.num _ => true
  | _ => false

/-- Whether every value of a record is a number. -/
def allNum (r : FinData) : Bool := r.all (fun p => isNumV p.2)

/-- A financial-data record as a JavaScript object: no duplicate keys. -/
@[reducible] def WfFinData (r : FinData) : Prop := (keysOf r).Nodup

/-- A dataset whose financial-data records are genuine JavaScript objects
(no duplicate keys) — true of every dataset the server can hold. -/
@[reducible] def WfDatabase (db : Database) : Prop :=
  ∀ p ∈ db.sponsorship_programs.getD [], ∀ s ∈ p.2.students.getD [],
    WfFinData (s.financial_data.getD [])

/-- The derived-monthly-output formula of the specification, read off a
record's numeric fields (0 when missing). -/
def monthlyOf (r : FinData) : ℚ :=
  getQ r "termly_school_fees" / 3 +
    getQ r "direct_spending_school_fees_ugx_monthly" + getQ r "food" +
    getQ r "average_medical" + getQ r "school_personal_requirements_transport" +
    getQ r "admin_utilities"

/-- The financial-data record of the specification's end-to-end scenario. -/
def exampleFinData : FinData :=
  [ ("termly_school_fees", JsVal.num 600000)
  , ("food", JsVal.num 90000)
  , ("average_medical", JsVal.num 10000)
  , ("school_personal_requirements_transport", JsVal.num 5000)
  , ("admin_utilities", JsVal.num 5000)
  , ("cash_received_euro", JsVal.num 70) ]

/-- A student record stripped of its serial number: the fields deletion
must leave untouched, in their original relative order. -/
def stripStudent (s : Student) :
    String × Option String × Option FinData × Option String :=
  (s.full_name, s.sponsorship_package, s.financial_data, s.notes)

/-- A sponsor record stripped of its CID. -/
def stripSponsor (s : Sponsor) :
    String × Option String × Option JsVal × Option String × Option String ×
      Option String × Option String :=
  (s.full_name, s.sponsor_name, s.amount, s.sponsorship_status, s.category,
    s.start_date, s.notes)

/-- An all-zero derived summary. -/
def emptySummary : Summary :=
  { total_students_across_all_programs := 0
    total_active_sponsorships := 0
    total_monthly_funding_euros := 0
    total_monthly_funding_ugx := 0 }

/-- A minimal top-level metadata object. -/
def emptyDbMeta : DbMeta :=
  { source_files := [], extraction_date := "2025-09-01", programs_summary := emptySummary }

/-- A dataset whose `sponsorship_programs` property is absent. -/
def dbNoPrograms : Database :=
  { sponsorship_programs := none
    sponsorship_registry := some []
    daily_expenses := some []
    metadata := some emptyDbMeta }

/-- A dataset whose `sponsorship_registry` property is absent. -/
def dbNoRegistry : Database :=
  { sponsorship_programs := some []
    sponsorship_registry := none
    daily_expenses := some []
    metadata := some emptyDbMeta }

/-- A dataset whose top-level `metadata` property is absent. -/
def dbNoMetadata : Database :=
  { sponsorship_programs := some []
    sponsorship_registry := none
    daily_expenses := some []
    metadata := none }

/-- A dataset with the three unconditionally-dereferenced objects present
but every inner optional part missing. -/
def dbInnerMissing : Database :=
  { sponsorship_programs := some [("CH", { program_name := "CH", students := none, metadata := none })]
    sponsorship_registry := some [("CH", { students := none, metadata := none })]
    daily_expenses := none
    metadata := some emptyDbMeta }

/-- A sponsor record with only the identity fields set. -/
def mkSponsor (cid : ℤ) (name : String) : Sponsor :=
  { cid := cid, full_name := name, sponsor_name := none, amount := none,
    sponsorship_status := none, category := none, start_date := none, notes := none }

/-- A student record with only the identity fields set. -/
def mkStudent (serial : ℤ) (name : String) : Student :=
  { serial_number := serial, full_name := name, sponsorship_package := none,
    financial_data := none, notes := none }

/-- A three-student list with dense serial numbers, for the deletion
scenario. -/
def c5StudentList : List Student := [mkStudent 1 "A", mkStudent 2 "B", mkStudent 3 "C"]

/-- A three-sponsor list with dense CIDs, for the deletion scenario. -/
def c5SponsorList : List Sponsor := [mkSponsor 1 "A", mkSponsor 2 "B", mkSponsor 3 "C"]

/-- The students of a program as the add-sponsor validation reads them
(`[]` when the programs object itself is absent — that case throws before
the validation is reached). -/
def dbProgramStudents (db : Database) (prog : String) : List Student :=
  match db.sponsorship_programs with
  | none => []
  | some progs => programStudents progs prog

/-- The id column of the stored expense list. -/
def expenseIds (l : List Expense) : List ℤ := l.map (fun e => e.id)

/-- An add-expense request carrying no id (and nothing else). -/
def c10Req : ExpenseReq :=
  { id := none, date := none, student := none, description := none,
    category := none, amount := none, currency := none }

/-- A concrete stored expense. -/
def mkExpense (i : ℤ) : Expense :=
  { id := i, date := none, student := none, description := none,
    category := none, amount := none, currency := "UGX" }

/-- A two-expense list with ids 1 and 2. -/
def c10List : List Expense := [mkExpense 1, mkExpense 2]

/-- A database with one program student named `"A"`, for the add-sponsor
rejection scenario. -/
def c6Db : Database :=
  { sponsorship_programs := some
      [("CH", { program_name := "CH", students := some [mkStudent 1 "A"], metadata := none })]
    sponsorship_registry := some [("CH", { students := some [], metadata := none })]
    daily_expenses := some []
    metadata := some emptyDbMeta }

/-- An add-sponsor request naming a student that does not exist. -/
def c6Req : SponsorReq :=
  { cid := none, full_name := "Nobody", sponsor_name := some "S", amount := some (JsVal.num 50),
    sponsorship_status := none, category := none, start_date := none, notes := none }

/-- A single sponsor whose `sponsorship_status` is the empty string — a
set, falsy, non-`'active'` status — with amount 10. -/
def c3Sponsors : List Sponsor :=
  [{ cid := 1, full_name := "A", sponsor_name := some "S", amount := some (JsVal.num 10),
     sponsorship_status := some "", category := none, start_date := none, notes := none }]

/-- A dataset whose only registry holds the empty-string-status sponsor. -/
def c3Db : Database :=
  { sponsorship_programs := some []
    sponsorship_registry := some [("CH", { students := some c3Sponsors, metadata := none })]
    daily_expenses := some []
    metadata := some emptyDbMeta }

/-- The `CH` registry of `c3Db` after recalculation. -/
def c3RegR : Registry :=
  { students := some c3Sponsors
    metadata := some { total_students := 1, active_students := 1, inactive_students := 0,
                       total_monthly_funding := 10 } }

/-- `c3Db` after recalculation. -/
def c3DbR : Database :=
  { sponsorship_programs := some []
    sponsorship_registry := some [("CH", c3RegR)]
    daily_expenses := some []
    metadata := some
      { source_files := []
        extraction_date := "2025-09-01"
        programs_summary := { total_students_across_all_programs := 0
                              total_active_sponsorships := 1
                              total_monthly_funding_euros := 10
                              total_monthly_funding_ugx := 41000 } } }

/-- `total_monthly_funding` of the `CH` registry after recalculating a
dataset, when every step succeeds. -/
def c3FundingOf (db : Database) : Option ℚ :=
  (recalculateAllMetadata db).bind (fun db' =>
    db'.sponsorship_registry.bind (fun regs =>
      (lookupKey "CH" regs).bind (fun r =>
        r.metadata.map (fun m => m.total_monthly_funding))))

/-- A student record stripped of its financial data: the raw identity
fields recalculation must not touch. -/
def stripFinancial (s : Student) : ℤ × String × Option String × Option String :=
  (s.serial_number, s.full_name, s.sponsorship_package, s.notes)

/-- The frame of `recalculateAllMetadata`: everything it leaves unchanged
(expenses, every sponsor record, program names, student identity fields,
raw top-level metadata), together with what it writes into each student's
`financial_data`: the spread-merge of the raw record with its normalized
and derived recalculation. -/
def FramePreserved (db db' : Database) : Prop :=
  db'.daily_expenses = db.daily_expenses ∧
  db'.sponsorship_registry.map (fun regs => regs.map (fun p => (p.1, p.2.students))) =
    db.sponsorship_registry.map (fun regs => regs.map (fun p => (p.1, p.2.students))) ∧
  db'.sponsorship_programs.map (fun ps => ps.map (fun p => (p.1, p.2.program_name))) =
    db.sponsorship_programs.map (fun ps => ps.map (fun p => (p.1, p.2.program_name))) ∧
  db'.sponsorship_programs.map (fun ps => ps.map (fun p =>
      p.2.students.map (fun ss => ss.map stripFinancial))) =
    db.sponsorship_programs.map (fun ps => ps.map (fun p =>
      p.2.students.map (fun ss => ss.map stripFinancial))) ∧
  db'.metadata.map (fun m => (m.source_files, m.extraction_date)) =
    db.metadata.map (fun m => (m.source_files, m.extraction_date)) ∧
  db'.sponsorship_programs.map (fun ps => ps.map (fun p =>
      p.2.students.map (fun ss => ss.map (fun s => s.financial_data)))) =
    db.sponsorship_programs.map (fun ps => ps.map (fun p =>
      p.2.students.map (fun ss => ss.map (fun s =>
        some (mergeRec (s.financial_data.getD [])
          (calculateStudentFinancials (s.financial_data.getD [])))))))

/-- A financial-data record holding a raw numeric string. -/
def c8Fd : FinData := [("food", JsVal.str "90000")]

/-- The student holding the raw numeric-string record. -/
def c8Student : Student :=
  { serial_number := 1, full_name := "A", sponsorship_package := some "Full",
    financial_data := some c8Fd, notes := none }

/-- A dataset with one student whose `food` field is the raw numeric
string `"90000"`. -/
def c8Db : Database :=
  { sponsorship_programs := some
      [("CH", { program_name := "CH", students := some [c8Student], metadata := none })]
    sponsorship_registry := some []
    daily_expenses := some []
    metadata := some emptyDbMeta }

/-- The raw `food` value of the first `CH` student of a dataset. -/
def c8FoodVal (db : Database) : Option JsVal :=
  match db.sponsorship_programs with
  | some progs =>
    (match lookupKey "CH" progs with
     | some p =>
       (match p.students with
        | some (s :: _) => findVal "food" (s.financial_data.getD [])
        | _ => none)
     | none => none)
  | none => none

/-- The financial record of the C8 student after one recalculation: the
normalized `food` value plus the five derived fields. -/
def c8FdR : FinData :=
  [("food", JsVal.num 90000), ("monthly_output_ugx", JsVal.num 90000),
   ("monthly_output_euro", JsVal.num (900 / 41)), ("cash_received_ugx", JsVal.num 0),
   ("plus_minus_diff_ugx", JsVal.num (-90000)),
   ("plus_minus_diff_euro", JsVal.num (-900 / 41))]

/-- The C8 student after one recalculation. -/
def c8StudentR : Student :=
  { c8Student with financial_data := some c8FdR }

/-- The C8 dataset after one recalculation: every derived field filled in. -/
def c8DbR : Database :=
  { sponsorship_programs := some
      [("CH", { program_name := "CH", students := some [c8StudentR],
                metadata := some ⟨1, [("Full", 1)], 90000, 900 / 41⟩ })]
    sponsorship_registry := some []
    daily_expenses := some []
    metadata := some { emptyDbMeta with programs_summary := ⟨1, 0, 0, 0⟩ } }

end SponsorSystem

/-! ## Theorems -/

namespace SponsorSystem

theorem keysOf_nil : keysOf [] = [] := rfl

theorem keysOf_cons {p : String × JsVal} {r : FinData} :
    keysOf (p :: r) = p.1 :: keysOf r := rfl

theorem findVal_nil {k : String} : findVal k [] = none := rfl

theorem findVal_cons {k : String} {p : String × JsVal} {r : FinData} :
    findVal k (p :: r) = if p.1 = k then some p.2 else findVal k r := by
  by_cases h : p.1 = k
  · unfold findVal
    rw [List.find?_cons_of_pos _ (by simp [h])]
    simp [h]
  · unfold findVal
    rw [List.find?_cons_of_neg _ (by simp [h])]
    simp [h]

theorem setField_cons {k : String} {v : JsVal} {p : String × JsVal} {r : FinData} :
    setField (p :: r) k v =
      if p.1 = k then (p.1, v) :: r else p :: setField r k v := by
  obtain ⟨k', v'⟩ := p
  by_cases h : k' = k <;> simp [setField, h]

theorem findVal_setField_self {r : FinData} {k : String} {v : JsVal} :
    findVal k (setField r k v) = some v := by
  induction r with
  | nil => simp [setField, findVal_cons]
  | cons p rest ih =>
    rw [setField_cons]
    by_cases h : p.1 = k
    · rw [if_pos h, findVal_cons]
      simp [h]
    · rw [if_neg h, findVal_cons, if_neg h, ih]

theorem findVal_setField_ne {r : FinData} {k k' : String} {v : JsVal} (h : k' ≠ k) :
    findVal k (setField r k' v) = findVal k r := by
  induction r with
  | nil =>
    rw [findVal_nil]
    show findVal k [(k', v)] = none
    rw [findVal_cons, if_neg h, findVal_nil]
  | cons p rest ih =>
    rw [setField_cons]
    by_cases hp : p.1 = k'
    · have hpk : ¬p.1 = k := by rw [hp]; exact h
      rw [if_pos hp, findVal_cons, findVal_cons]
      simp only [hp, hpk, if_neg h, if_false]
    · rw [if_neg hp, findVal_cons, findVal_cons, ih]

theorem setField_of_findVal_eq {r : FinData} {k : String} {v : JsVal}
    (h : findVal k r = some v) : setField r k v = r := by
  induction r with
  | nil => simp [findVal_nil] at h
  | cons p rest ih =>
    obtain ⟨a, b⟩ := p
    rw [findVal_cons] at h
    rw [setField_cons]
    by_cases hp : (a, b).1 = k
    · rw [if_pos hp] at h ⊢
      simp at h
      simp [h]
    · rw [if_neg hp] at h ⊢
      rw [ih h]

theorem keysOf_setField_of_isSome {r : FinData} {k : String} {v : JsVal}
    (h : (findVal k r).isSome) : keysOf (setField r k v) = keysOf r := by
  induction r with
  | nil => simp [findVal_nil] at h
  | cons p rest ih =>
    rw [findVal_cons] at h
    rw [setField_cons]
    by_cases hp : p.1 = k
    · rw [if_pos hp, keysOf_cons, keysOf_cons, hp]
    · rw [if_neg hp] at h
      rw [if_neg hp, keysOf_cons, keysOf_cons, ih h]

theorem keysOf_setField_of_none {r : FinData} {k : String} {v : JsVal}
    (h : findVal k r = none) : keysOf (setField r k v) = keysOf r ++ [k] := by
  induction r with
  | nil => simp [setField, keysOf]
  | cons p rest ih =>
    rw [findVal_cons] at h
    rw [setField_cons]
    by_cases hp : p.1 = k
    · rw [if_pos hp] at h
      simp at h
    · rw [if_neg hp] at h
      rw [if_neg hp, keysOf_cons, keysOf_cons, ih h, List.cons_append]

theorem findVal_isSome_iff_mem {r : FinData} {k : String} :
    (findVal k r).isSome ↔ k ∈ keysOf r := by
  induction r with
  | nil => simp [findVal_nil, keysOf]
  | cons p rest ih =>
    rw [findVal_cons, keysOf_cons]
    by_cases hp : p.1 = k
    · simp [hp]
    · rw [if_neg hp]
      simp only [List.mem_cons, ih]
      constructor
      · exact Or.inr
      · rintro (h | h)
        · exact absurd h.symm hp
        · exact h

theorem nodup_keysOf_setField {r : FinData} {k : String} {v : JsVal}
    (h : (keysOf r).Nodup) : (keysOf (setField r k v)).Nodup := by
  cases hf : findVal k r with
  | none =>
    rw [keysOf_setField_of_none hf]
    have hk : k ∉ keysOf r := by
      intro hm
      have := findVal_isSome_iff_mem.mpr hm
      rw [hf] at this
      simp at this
    simp [List.nodup_append, h, hk]
  | some w =>
    rw [keysOf_setField_of_isSome (by simp [hf])]
    exact h

theorem findVal_of_nodup_mem {r : FinData} {p : String × JsVal}
    (hn : (keysOf r).Nodup) (hm : p ∈ r) : findVal p.1 r = some p.2 := by
  induction r with
  | nil => simp at hm
  | cons q rest ih =>
    rw [keysOf_cons, List.nodup_cons] at hn
    rcases List.mem_cons.mp hm with he | hm'
    · subst he
      rw [findVal_cons, if_pos rfl]
    · have hq : ¬q.1 = p.1 := by
        intro he
        exact hn.1 (he ▸ List.mem_map_of_mem (fun x => x.1) hm')
      rw [findVal_cons, if_neg hq]
      exact ih hn.2 hm'

/-! ### Normalization lemmas -/

theorem findVal_allNum {r : FinData} {k : String} {v : JsVal}
    (ha : allNum r = true) (h : findVal k r = some v) : isNumV v = true := by
  unfold findVal at h
  cases hf : List.find? (fun p => p.1 == k) r with
  | none => rw [hf] at h; simp at h
  | some q =>
    rw [hf] at h
    simp at h
    have hq := List.mem_of_find?_eq_some hf
    rw [allNum, List.all_eq_true] at ha
    rw [← h]
    exact ha q hq

theorem normalizeStep_of_num {r : FinData} {k : String}
    (h : ∃ q, findVal k r = some (JsVal.num q)) : normalizeStep r k = r := by
  obtain ⟨q, hq⟩ := h
  unfold normalizeStep
  rw [hq]

theorem normalizeRec_of_allNum {r : FinData} (ha : allNum r = true) :
    normalizeRec r = r := by
  unfold normalizeRec
  have hL : ∀ L : List String, (∀ k ∈ L, k ∈ keysOf r) → L.foldl normalizeStep r = r := by
    intro L
    induction L with
    | nil => intro _; rfl
    | cons k rest ih =>
      intro hmem
      have hk : k ∈ keysOf r := hmem k (by simp)
      have hks := findVal_isSome_iff_mem.mpr hk
      cases hv : findVal k r with
      | none => rw [hv] at hks; simp at hks
      | some v =>
        have hnum := findVal_allNum ha hv
        cases v with
        | num q =>
          rw [List.foldl_cons, normalizeStep_of_num ⟨q, hv⟩]
          exact ih (fun x hx => hmem x (by simp [hx]))
        | str s => simp [isNumV] at hnum
        | null => simp [isNumV] at hnum
  exact hL (keysOf r) (fun k hk => hk)

/-- `normalizeStep` either leaves the record unchanged or writes a numeric
value at the stepped key. -/
theorem normalizeStep_eq_or_set {r : FinData} {k : String} :
    normalizeStep r k = r ∨ ∃ q, normalizeStep r k = setField r k (JsVal.num q) := by
  unfold normalizeStep
  cases hv : findVal k r with
  | none => exact Or.inr ⟨0, rfl⟩
  | some v =>
    cases v with
    | num q => exact Or.inl rfl
    | null => exact Or.inr ⟨0, rfl⟩
    | str s =>
      refine Or.inr ?_
      cases hs : s.data with
      | nil =>
        refine ⟨(parseFloatPrefix s.data).getD 0, ?_⟩
        simp only [hs]
      | cons c cs =>
        by_cases hc : c = '='
        · refine ⟨evaluateFormula s r, ?_⟩
          simp only [hs, if_pos hc]
        · refine ⟨(parseFloatPrefix s.data).getD 0, ?_⟩
          simp only [hs, if_neg hc]

theorem keysOf_normalizeStep {r : FinData} {k : String} (hk : k ∈ keysOf r) :
    keysOf (normalizeStep r k) = keysOf r := by
  rcases @normalizeStep_eq_or_set r k with h | ⟨q, h⟩
  · rw [h]
  · rw [h, keysOf_setField_of_isSome (findVal_isSome_iff_mem.mpr hk)]

theorem keysOf_normalizeRec {r : FinData} : keysOf (normalizeRec r) = keysOf r := by
  unfold normalizeRec
  have hL : ∀ (L : List String) (s : FinData), (∀ k ∈ L, k ∈ keysOf s) →
      keysOf (L.foldl normalizeStep s) = keysOf s := by
    intro L
    induction L with
    | nil => intro s _; rfl
    | cons k rest ih =>
      intro s hmem
      have hk := @keysOf_normalizeStep s k (hmem k (by simp))
      rw [List.foldl_cons, ih (normalizeStep s k)
        (fun x hx => by rw [hk]; exact hmem x (by simp [hx])), hk]
  exact hL (keysOf r) r (fun k hk => hk)

/-! ### Structure of `calculateStudentFinancials` -/

theorem getQ_setField_self {r : FinData} {k : String} {q : ℚ} :
    getQ (setField r k (JsVal.num q)) k = q := by
  unfold getQ
  rw [findVal_setField_self]

theorem getQ_setField_ne {r : FinData} {k k' : String} {v : JsVal} (h : k' ≠ k) :
    getQ (setField r k' v) k = getQ r k := by
  unfold getQ
  rw [findVal_setField_ne h]

/-- The five derived writes of `calculateStudentFinancials`, with every
read-back of a just-written field resolved. -/
theorem calc_eq (fd : FinData) :
    calculateStudentFinancials fd =
      setField (setField (setField (setField (setField (normalizeRec fd)
        "monthly_output_ugx" (JsVal.num (monthlyOf (normalizeRec fd))))
        "monthly_output_euro" (JsVal.num (monthlyOf (normalizeRec fd) / EXCHANGE_RATE)))
        "cash_received_ugx" (JsVal.num (getQ (normalizeRec fd) "cash_received_euro" * EXCHANGE_RATE)))
        "plus_minus_diff_ugx" (JsVal.num (getQ (normalizeRec fd) "cash_received_euro" * EXCHANGE_RATE -
          monthlyOf (normalizeRec fd))))
        "plus_minus_diff_euro" (JsVal.num ((getQ (normalizeRec fd) "cash_received_euro" * EXCHANGE_RATE -
          monthlyOf (normalizeRec fd)) / EXCHANGE_RATE)) := by
  have h1 : ("monthly_output_euro" : String) ≠ "cash_received_euro" := by decide
  have h2 : ("monthly_output_ugx" : String) ≠ "cash_received_euro" := by decide
  have h3 : ("cash_received_ugx" : String) ≠ "monthly_output_ugx" := by decide
  have h4 : ("monthly_output_euro" : String) ≠ "monthly_output_ugx" := by decide
  simp only [calculateStudentFinancials, monthlyOf, getQ_setField_self,
    getQ_setField_ne h1, getQ_setField_ne h2, getQ_setField_ne h3, getQ_setField_ne h4]

theorem findVal_calc_monthly (fd : FinData) :
    findVal "monthly_output_ugx" (calculateStudentFinancials fd) =
      some (JsVal.num (monthlyOf (normalizeRec fd))) := by
  rw [calc_eq, findVal_setField_ne (by decide), findVal_setField_ne (by decide),
    findVal_setField_ne (by decide), findVal_setField_ne (by decide), findVal_setField_self]

theorem findVal_calc_cash (fd : FinData) :
    findVal "cash_received_ugx" (calculateStudentFinancials fd) =
      some (JsVal.num (getQ (normalizeRec fd) "cash_received_euro" * EXCHANGE_RATE)) := by
  rw [calc_eq, findVal_setField_ne (by decide), findVal_setField_ne (by decide),
    findVal_setField_self]

theorem findVal_calc_diff (fd : FinData) :
    findVal "plus_minus_diff_ugx" (calculateStudentFinancials fd) =
      some (JsVal.num (getQ (normalizeRec fd) "cash_received_euro" * EXCHANGE_RATE -
        monthlyOf (normalizeRec fd))) := by
  rw [calc_eq, findVal_setField_ne (by decide), findVal_setField_self]

/-! ### Claim C1 -/

unseal Rat.add Rat.mul Rat.inv Rat.sub in
/-- C1: for every financial-data record (with numeric fields, as the claim
reads them), `calculateStudentFinancials` sets `monthly_output_ugx` to
`termly_school_fees / 3 + direct_spending_school_fees_ugx_monthly + food +
average_medical + school_personal_requirements_transport + admin_utilities`
with every missing field read as 0; and on the specification's concrete
scenario record it yields `monthly_output_ugx = 310000`,
`cash_received_ugx = 287000` and `plus_minus_diff_ugx = -23000`. -/
theorem c1_monthly_output_formula :
    (∀ fd : FinData, allNum fd = true →
        findVal "monthly_output_ugx" (calculateStudentFinancials fd) =
          some (JsVal.num (monthlyOf fd))) ∧
      findVal "monthly_output_ugx" (calculateStudentFinancials exampleFinData) =
        some (JsVal.num 310000) ∧
      findVal "cash_received_ugx" (calculateStudentFinancials exampleFinData) =
        some (JsVal.num 287000) ∧
      findVal "plus_minus_diff_ugx" (calculateStudentFinancials exampleFinData) =
        some (JsVal.num (-23000)) := by
  refine ⟨?_, by decide, by decide, by decide⟩
  intro fd h
  rw [findVal_calc_monthly, normalizeRec_of_allNum h]

unseal Rat.add Rat.mul Rat.inv Rat.sub in
/-- Witness for C1: the general formula applied to the concrete scenario
record, whose values are all numeric. -/
theorem c1_monthly_output_formula_witness :
    allNum exampleFinData = true ∧
      findVal "monthly_output_ugx" (calculateStudentFinancials exampleFinData) =
        some (JsVal.num (monthlyOf exampleFinData)) :=
  ⟨by decide, c1_monthly_output_formula.1 exampleFinData (by decide)⟩

/-! ### Decimal rendering round-trip -/

theorem digitChar_isDigit : ∀ d : ℕ, d < 10 → (Nat.digitChar d).isDigit = true := by decide

theorem digitChar_val : ∀ d : ℕ, d < 10 → (Nat.digitChar d).toNat - 48 = d := by decide

theorem charsVal_nil {acc : ℕ} : charsVal [] acc = acc := rfl

theorem charsVal_cons {c : Char} {cs : List Char} {acc : ℕ} :
    charsVal (c :: cs) acc = charsVal cs (acc * 10 + (c.toNat - 48)) := rfl

theorem charsVal_append {xs ys : List Char} {acc : ℕ} :
    charsVal (xs ++ ys) acc = charsVal ys (charsVal xs acc) := by
  unfold charsVal
  rw [List.foldl_append]

theorem toDigitsAux_digits : ∀ f n, n ≤ f → ∀ c ∈ toDigitsAux f n, c.isDigit = true := by
  intro f
  induction f with
  | zero =>
    intro n hn
    interval_cases n
    intro c hc
    simp [toDigitsAux] at hc
  | succ f ih =>
    intro n hn c hc
    match n, hc with
    | 0, hc => simp [toDigitsAux] at hc
    | m + 1, hc =>
      rw [toDigitsAux, if_neg (Nat.succ_ne_zero m), List.mem_append] at hc
      have hdiv : (m + 1) / 10 ≤ f := by
        have := Nat.div_lt_self (Nat.succ_pos m) (by norm_num : (1 : ℕ) < 10)
        omega
      rcases hc with hc | hc
      · exact ih ((m + 1) / 10) hdiv c hc
      · simp at hc
        rw [hc]
        exact digitChar_isDigit _ (Nat.mod_lt _ (by norm_num))

theorem toDigitsAux_val : ∀ f n, n ≤ f → charsVal (toDigitsAux f n) 0 = n := by
  intro f
  induction f with
  | zero =>
    intro n hn
    interval_cases n
    rfl
  | succ f ih =>
    intro n hn
    match n with
    | 0 => rfl
    | m + 1 =>
      rw [toDigitsAux, if_neg (Nat.succ_ne_zero m), charsVal_append]
      have hdiv : (m + 1) / 10 ≤ f := by
        have := Nat.div_lt_self (Nat.succ_pos m) (by norm_num : (1 : ℕ) < 10)
        omega
      rw [ih _ hdiv, charsVal_cons, charsVal_nil,
        digitChar_val _ (Nat.mod_lt _ (by norm_num))]
      omega

theorem renderNatChars_val (n : ℕ) : charsVal (renderNatChars n) 0 = n := by
  unfold renderNatChars
  by_cases h : n = 0
  · rw [if_pos h, h]
    rfl
  · rw [if_neg h]
    exact toDigitsAux_val n n le_rfl

theorem renderNatChars_digits {n : ℕ} : ∀ c ∈ renderNatChars n, c.isDigit = true := by
  unfold renderNatChars
  by_cases h : n = 0
  · rw [if_pos h]
    intro c hc
    simp at hc
    rw [hc]
    rfl
  · rw [if_neg h]
    exact toDigitsAux_digits n n le_rfl

theorem renderNatChars_ne_nil {n : ℕ} : renderNatChars n ≠ [] := by
  unfold renderNatChars
  by_cases h : n = 0
  · rw [if_pos h]
    simp
  · rw [if_neg h]
    match n, h with
    | m + 1, _ =>
      rw [toDigitsAux, if_neg (Nat.succ_ne_zero m)]
      simp

/-! ### Lexing a digit run -/

theorem lexNat_append : ∀ (ds : List Char) (acc : ℕ) (rest : List Char),
    (∀ c ∈ ds, c.isDigit = true) →
    (∀ c, rest.head? = some c → c.isDigit = false) →
    lexNat (ds ++ rest) acc = (charsVal ds acc, rest) := by
  intro ds
  induction ds with
  | nil =>
    intro acc rest _ hrest
    rw [List.nil_append, charsVal_nil]
    cases rest with
    | nil => rfl
    | cons c cs =>
      rw [lexNat, if_neg (by rw [hrest c rfl]; exact Bool.false_ne_true)]
  | cons d ds' ih =>
    intro acc rest hds hrest
    rw [List.cons_append, lexNat, if_pos (hds d (by simp)), charsVal_cons]
    exact ih _ rest (fun c hc => hds c (by simp [hc])) hrest

theorem tokenizeAux_nil (f : ℕ) : tokenizeAux f [] = some [] := by
  cases f <;> rfl

/-- Tokenizing a digit run followed by anything that is neither a digit nor
a decimal point: one numeral token carrying the run's value. -/
theorem tokenizeAux_digitRun (f : ℕ) (ds rest : List Char) (hne : ds ≠ [])
    (hds : ∀ c ∈ ds, c.isDigit = true)
    (hrest : ∀ c, rest.head? = some c → (c.isDigit = false ∧ c ≠ '.')) :
    tokenizeAux (f + 1) (ds ++ rest) =
      (tokenizeAux f rest).map (fun ts => Token.num ((charsVal ds 0 : ℕ) : ℚ) :: ts) := by
  match ds, hne with
  | c :: ds', _ =>
    have hcd : c.isDigit = true := hds c (by simp)
    have hcs : ¬c = ' ' := by
      intro h
      rw [h] at hcd
      exact absurd hcd (by decide)
    rw [List.cons_append, tokenizeAux, if_neg hcs, if_pos hcd]
    have hlex : lexNat (ds' ++ rest) (c.toNat - 48) = (charsVal ds' (c.toNat - 48), rest) :=
      lexNat_append ds' _ rest (fun x hx => hds x (by simp [hx])) (fun x hx => (hrest x hx).1)
    rw [hlex]
    have hcv : charsVal ds' (c.toNat - 48) = charsVal (c :: ds') 0 := by
      rw [charsVal_cons]
      norm_num
    cases rest with
    | nil =>
      simp only [List.head?_nil]
      rw [if_neg (by simp)]
      rw [hcv]
    | cons r rs =>
      have hr := hrest r rfl
      simp only [List.head?_cons]
      rw [if_neg (by simp [hr.2])]
      rw [hcv]

/-- Tokenizing the concrete tail `/3`. -/
theorem tokenizeAux_slash3 (f : ℕ) :
    tokenizeAux (f + 2) ['/', '3'] = some [Token.slash, Token.num 3] := by
  have h1 : tokenizeAux (f + 2) ['/', '3'] =
      (tokenizeAux (f + 1) ['3']).map (fun ts => Token.slash :: ts) := rfl
  have h2 : tokenizeAux (f + 1) ['3'] =
      (tokenizeAux f []).map (fun ts => Token.num ((3 : ℕ) : ℚ) :: ts) := rfl
  rw [h1, h2, tokenizeAux_nil]
  simp

/-- Parsing `q / 3` from its three tokens. -/
theorem parseGo_num_slash3 (q : ℚ) :
    parseGo 16 PK.expr 0 [Token.num q, Token.slash, Token.num 3] = some (q / 3, []) := rfl

/-- Arithmetic evaluation of a rendered natural followed by `/3`. -/
theorem arithEval_digits_slash3 (t : ℕ) :
    arithEval (renderNatChars t ++ ['/', '3']) = some ((t : ℚ) / 3) := by
  unfold arithEval
  have hlen : (renderNatChars t ++ ['/', '3']).length = ((renderNatChars t).length + 1) + 1 := by
    simp
  rw [hlen]
  have hrest : ∀ c, (['/', '3'] : List Char).head? = some c → (c.isDigit = false ∧ c ≠ '.') := by
    intro c h
    simp at h
    subst h
    exact ⟨by decide, by decide⟩
  rw [tokenizeAux_digitRun _ _ _ renderNatChars_ne_nil renderNatChars_digits hrest]
  obtain ⟨L, hL⟩ : ∃ L, (renderNatChars t).length = L + 1 := by
    cases h : renderNatChars t with
    | nil => exact absurd h renderNatChars_ne_nil
    | cons a as => exact ⟨as.length, by simp [h]⟩
  rw [hL]
  rw [show L + 1 + 1 = L + 2 from rfl, tokenizeAux_slash3, renderNatChars_val]
  show (match parseGo (4 * ([Token.num ((t : ℕ) : ℚ), Token.slash, Token.num 3].length) + 4)
      PK.expr 0 [Token.num ((t : ℕ) : ℚ), Token.slash, Token.num 3] with
    | some (v, []) => some v
    | _ => none) = some ((t : ℚ) / 3)
  rw [show (4 * ([Token.num ((t : ℕ) : ℚ), Token.slash, Token.num 3].length) + 4) = 16 from rfl]
  rw [parseGo_num_slash3]

/-! ### Identity of the string rewrites away from their triggers -/

theorem replaceAllAux_not_mem {pat rep : List Char} {c0 : Char}
    (hp : pat.head? = some c0) : ∀ (f : ℕ) (cs : List Char), c0 ∉ cs →
    replaceAllAux pat rep f cs = cs := by
  intro f cs
  induction cs generalizing f with
  | nil => intro _; cases f <;> rfl
  | cons c cs' ih =>
    intro hmem
    cases f with
    | zero => rfl
    | succ f =>
      match pat, hp with
      | p0 :: pat', hp =>
        have hp0 : p0 = c0 := by simpa using hp
        have hne : ¬(p0 == c) = true := by
          simp only [beq_iff_eq, hp0]
          intro h
          exact hmem (by rw [h]; simp)
        rw [replaceAllAux, if_neg (by rw [List.isPrefixOf_cons₂]; simp [hne])]
        rw [ih f (fun h => hmem (by simp [h]))]

theorem replaceAll_not_mem {cs pat rep : List Char} {c0 : Char}
    (hp : pat.head? = some c0) (hmem : c0 ∉ cs) : replaceAll cs pat rep = cs :=
  replaceAllAux_not_mem hp cs.length cs hmem

theorem percentRewriteAux_id : ∀ (b : Bool) (cs : List Char), '%' ∉ cs →
    percentRewriteAux b cs = cs := by
  intro b cs
  induction cs generalizing b with
  | nil => intro _; rfl
  | cons c cs' ih =>
    intro hmem
    have hc : ¬c = '%' := fun h => hmem (by rw [h]; simp)
    rw [percentRewriteAux, if_neg hc, ih _ (fun h => hmem (by simp [h]))]

theorem sumRewriteAux_id (data : FinData) : ∀ (f : ℕ) (cs : List Char), 'S' ∉ cs →
    sumRewriteAux data f cs = cs := by
  intro f
  induction f with
  | zero => intro cs _; rfl
  | succ f ih =>
    intro cs hmem
    cases cs with
    | nil => rfl
    | cons c cs' =>
      have hc : ¬c = 'S' := fun h => hmem (by rw [h]; simp)
      rw [sumRewriteAux, if_neg (by intro h; exact hc h.1),
        ih cs' (fun h => hmem (by simp [h]))]

/-! ### The D3 substitution -/

theorem jsOr0_num (q : ℚ) : jsOr0 (some (JsVal.num q)) = JsVal.num q := by
  by_cases h : q = 0 <;> simp [jsOr0, h]

theorem renderQ_natCast (t : ℕ) : renderQ ((t : ℕ) : ℚ) = renderNatChars t := by
  unfold renderQ renderInt
  rw [if_pos (Rat.den_natCast t), Rat.num_natCast]
  rw [if_neg (by exact not_lt.mpr (Int.natCast_nonneg t))]
  rw [Int.natAbs_ofNat]

theorem percentRewrite_id {cs : List Char} (h : '%' ∉ cs) : percentRewrite cs = cs :=
  percentRewriteAux_id false cs h

/-- Substituted-expression characters of the `=D3/3` pipeline: every
non-digit other than `/` is absent from `renderNatChars t ++ ['/', '3']`. -/
theorem not_mem_digits_slash3 {t : ℕ} (c : Char) (hnd : c.isDigit = false) (hns : c ≠ '/') :
    c ∉ renderNatChars t ++ ['/', '3'] := by
  intro hm
  rw [List.mem_append] at hm
  rcases hm with hm | hm
  · rw [renderNatChars_digits c hm] at hnd
    exact absurd hnd (by decide)
  · simp at hm
    rcases hm with hm | hm
    · exact hns hm
    · rw [hm] at hnd
      exact absurd hnd (by decide)

/-- `evaluateFormula("=D3/3", data)` whenever the substituted
`termly_school_fees` value renders as the decimal numeral of `t`. -/
theorem evaluateFormula_D3_div3 (data : FinData) (t : ℕ)
    (hval : jsToString (jsOr0 (findVal "termly_school_fees" data)) = renderNatChars t) :
    evaluateFormula "=D3/3" data = (t : ℚ) / 3 := by
  unfold evaluateFormula
  rw [show (("=D3/3" : String).data.drop 1) = ['D', '3', '/', '3'] from rfl]
  simp only [formulaSubstitutions, List.foldl_cons, List.foldl_nil]
  rw [@replaceAll_not_mem _ (("$E$3" : String).data) _ '$' rfl (by decide)]
  rw [@replaceAll_not_mem _ (("$D$3" : String).data) _ '$' rfl (by decide)]
  rw [show ∀ rep, replaceAll ['D', '3', '/', '3'] (("D3" : String).data) rep = rep ++ ['/', '3']
    from fun rep => rfl]
  rw [hval]
  rw [@replaceAll_not_mem _ (("E3" : String).data) _ 'E' rfl
    (not_mem_digits_slash3 'E' (by decide) (by decide))]
  rw [@replaceAll_not_mem _ (("F3" : String).data) _ 'F' rfl
    (not_mem_digits_slash3 'F' (by decide) (by decide))]
  rw [@replaceAll_not_mem _ (("G3" : String).data) _ 'G' rfl
    (not_mem_digits_slash3 'G' (by decide) (by decide))]
  rw [@replaceAll_not_mem _ (("H3" : String).data) _ 'H' rfl
    (not_mem_digits_slash3 'H' (by decide) (by decide))]
  rw [@replaceAll_not_mem _ (("I3" : String).data) _ 'I' rfl
    (not_mem_digits_slash3 'I' (by decide) (by decide))]
  rw [@replaceAll_not_mem _ (("J3" : String).data) _ 'J' rfl
    (not_mem_digits_slash3 'J' (by decide) (by decide))]
  rw [percentRewrite_id (not_mem_digits_slash3 '%' (by decide) (by decide))]
  rw [sumRewriteAux_id data _ _ (not_mem_digits_slash3 'S' (by decide) (by decide))]
  rw [arithEval_digits_slash3]

/-! ### Claim C4 -/

/-- C4: in `evaluateFormula` the token `D3` is replaced by the record's
`termly_school_fees` value (0 when the field is absent) and the resulting
arithmetic expression is evaluated: for every record holding a natural
number `t` there, `evaluateFormula("=D3/3")` returns `t / 3`; with the
field absent it returns `0`; and concretely with `termly_school_fees =
600000` it returns `200000`. -/
theorem c4_formula_substitution :
    (∀ (data : FinData) (t : ℕ),
        findVal "termly_school_fees" data = some (JsVal.num ((t : ℕ) : ℚ)) →
        evaluateFormula "=D3/3" data = ((t : ℕ) : ℚ) / 3) ∧
      (∀ data : FinData, findVal "termly_school_fees" data = none →
        evaluateFormula "=D3/3" data = 0) ∧
      evaluateFormula "=D3/3" [("termly_school_fees", JsVal.num 600000)] = 200000 := by
  have hcast : ∀ t : ℕ, jsToString (JsVal.num ((t : ℕ) : ℚ)) = renderNatChars t := by
    intro t
    show renderQ ((t : ℕ) : ℚ) = renderNatChars t
    exact renderQ_natCast t
  refine ⟨?_, ?_, ?_⟩
  · intro data t h
    refine evaluateFormula_D3_div3 data t ?_
    rw [h, jsOr0_num]
    exact hcast t
  · intro data h
    have h0 := evaluateFormula_D3_div3 data 0 (by
      rw [h]
      show jsToString (JsVal.num 0) = renderNatChars 0
      rw [show (0 : ℚ) = ((0 : ℕ) : ℚ) by norm_num]
      exact hcast 0)
    rw [h0]
    norm_num
  · have h := evaluateFormula_D3_div3 [("termly_school_fees", JsVal.num 600000)] 600000 (by
      rw [show findVal "termly_school_fees" [("termly_school_fees", JsVal.num 600000)] =
        some (JsVal.num 600000) from rfl, jsOr0_num]
      rw [show (600000 : ℚ) = ((600000 : ℕ) : ℚ) by norm_num]
      exact hcast 600000)
    rw [h]
    norm_num

/-- Witness for C4: the universally quantified substitution statement
applied at the concrete scenario record. -/
theorem c4_formula_substitution_witness :
    findVal "termly_school_fees" [("termly_school_fees", JsVal.num ((600000 : ℕ) : ℚ))] =
        some (JsVal.num ((600000 : ℕ) : ℚ)) ∧
      evaluateFormula "=D3/3" [("termly_school_fees", JsVal.num ((600000 : ℕ) : ℚ))] =
        ((600000 : ℕ) : ℚ) / 3 :=
  ⟨rfl, c4_formula_substitution.1 _ 600000 rfl⟩

/-! ### Claim C9 -/

/-- C9, the behavior the specification requires: under the constrained
arithmetic evaluator of §4.1/§7, a formula body that is not a plain
arithmetic expression fails and yields 0 — here `=Math.pow(2,10)`.  The
server instead hands the substituted body to the JavaScript `Function`
constructor, which evaluates arbitrary expressions (Node returns 1024 on
this input), so the claim fails on the code. -/
theorem c9_arithmetic_only_required :
    evaluateFormula "=Math.pow(2,10)" [] = 0 := by decide

/-! ### Claim C7 -/

/-- C7 counterexample: `recalculateAllMetadata` throws (models as `none`)
whenever `sponsorship_programs`, `sponsorship_registry` or the top-level
`metadata` object is absent, because `Object.entries(undefined)` and
property assignment on `undefined` raise `TypeError`. -/
theorem c7_counterexample :
    recalculateAllMetadata dbNoPrograms = none ∧
      recalculateAllMetadata dbNoRegistry = none ∧
      recalculateAllMetadata dbNoMetadata = none :=
  ⟨rfl, rfl, rfl⟩

/-- C7 as amended: `recalculateAllMetadata` is total on every dataset whose
three top-level objects are present; all inner optional parts (program
metadata or student arrays, registry metadata or student arrays, expenses)
may be missing and are skipped or rebuilt. -/
theorem c7_recalc_total_amended (db : Database)
    (h1 : db.sponsorship_programs ≠ none) (h2 : db.sponsorship_registry ≠ none)
    (h3 : db.metadata ≠ none) : (recalculateAllMetadata db).isSome = true := by
  unfold recalculateAllMetadata
  cases hp : db.sponsorship_programs with
  | none => exact absurd hp h1
  | some progs =>
    cases hr : db.sponsorship_registry with
    | none => exact absurd hr h2
    | some regs =>
      cases hm : db.metadata with
      | none => exact absurd hm h3
      | some meta => rfl

/-- Witness for C7: the amended totality applied to a dataset whose inner
optional parts are all missing. -/
theorem c7_recalc_total_amended_witness :
    (recalculateAllMetadata dbInnerMissing).isSome = true :=
  c7_recalc_total_amended dbInnerMissing (by decide) (by decide) (by decide)

/-! ### Claim C5 -/

theorem renumStudentsAux_length : ∀ (n : ℤ) (l : List Student),
    (renumStudentsAux n l).length = l.length := by
  intro n l
  induction l generalizing n with
  | nil => rfl
  | cons s rest ih => simp [renumStudentsAux, ih]

theorem renumStudentsAux_serials : ∀ (n : ℤ) (l : List Student),
    (renumStudentsAux n l).map (fun s => s.serial_number) =
      (List.range l.length).map (fun i : ℕ => (i : ℤ) + n) := by
  intro n l
  induction l generalizing n with
  | nil => rfl
  | cons s rest ih =>
    rw [renumStudentsAux, List.map_cons, ih (n + 1), List.length_cons,
      List.range_succ_eq_map, List.map_cons, List.map_map]
    refine congrArg₂ _ (by simp) ?_
    refine List.map_congr_left ?_
    intro i _
    simp only [Function.comp_apply]
    push_cast
    ring

theorem renumStudentsAux_strip : ∀ (n : ℤ) (l : List Student),
    (renumStudentsAux n l).map stripStudent = l.map stripStudent := by
  intro n l
  induction l generalizing n with
  | nil => rfl
  | cons s rest ih =>
    rw [renumStudentsAux, List.map_cons, List.map_cons, ih]
    rfl

theorem renumSponsorsAux_length : ∀ (n : ℤ) (l : List Sponsor),
    (renumSponsorsAux n l).length = l.length := by
  intro n l
  induction l generalizing n with
  | nil => rfl
  | cons s rest ih => simp [renumSponsorsAux, ih]

theorem renumSponsorsAux_cids : ∀ (n : ℤ) (l : List Sponsor),
    (renumSponsorsAux n l).map (fun s => s.cid) =
      (List.range l.length).map (fun i : ℕ => (i : ℤ) + n) := by
  intro n l
  induction l generalizing n with
  | nil => rfl
  | cons s rest ih =>
    rw [renumSponsorsAux, List.map_cons, ih (n + 1), List.length_cons,
      List.range_succ_eq_map, List.map_cons, List.map_map]
    refine congrArg₂ _ (by simp) ?_
    refine List.map_congr_left ?_
    intro i _
    simp only [Function.comp_apply]
    push_cast
    ring

theorem renumSponsorsAux_strip : ∀ (n : ℤ) (l : List Sponsor),
    (renumSponsorsAux n l).map stripSponsor = l.map stripSponsor := by
  intro n l
  induction l generalizing n with
  | nil => rfl
  | cons s rest ih =>
    rw [renumSponsorsAux, List.map_cons, List.map_cons, ih]
    rfl

/-- C5: deleting identifier `k` from an `N`-entry list whose serials
(respectively CIDs) are dense `1..N` yields `N-1` entries carrying
identifiers exactly `1..N-1`, with all other fields in their original
relative order — for the student route and the sponsor route alike. -/
theorem c5_delete_renumbers :
    (∀ (l : List Student) (k : ℕ), 1 ≤ k → k ≤ l.length →
      l.map (fun s => s.serial_number) = (List.range l.length).map (fun i : ℕ => (i : ℤ) + 1) →
      ∃ l', deleteStudentFrom l (k : ℤ) = some l' ∧
        l'.length + 1 = l.length ∧
        l'.map (fun s => s.serial_number) =
          (List.range l'.length).map (fun i : ℕ => (i : ℤ) + 1) ∧
        l'.map stripStudent = (l.eraseIdx (k - 1)).map stripStudent) ∧
    (∀ (l : List Sponsor) (k : ℕ), 1 ≤ k → k ≤ l.length →
      l.map (fun s => s.cid) = (List.range l.length).map (fun i : ℕ => (i : ℤ) + 1) →
      ∃ l', deleteSponsorFrom l (k : ℤ) = some l' ∧
        l'.length + 1 = l.length ∧
        l'.map (fun s => s.cid) =
          (List.range l'.length).map (fun i : ℕ => (i : ℤ) + 1) ∧
        l'.map stripSponsor = (l.eraseIdx (k - 1)).map stripSponsor) := by
  constructor
  · intro l k hk1 hk2 hser
    have hser' : ∀ i (h : i < l.length), l[i].serial_number = (i : ℤ) + 1 := by
      intro i h
      have h1 : (l.map (fun s => s.serial_number))[i]? =
          ((List.range l.length).map (fun j : ℕ => (j : ℤ) + 1))[i]? := by
        rw [hser]
      rw [List.getElem?_map, List.getElem?_map, List.getElem?_eq_getElem h,
        List.getElem?_range h] at h1
      simpa using h1
    have hfind : l.findIdx? (fun s => s.serial_number == (k : ℤ)) = some (k - 1) := by
      rw [List.findIdx?_eq_some_iff_getElem]
      refine ⟨by omega, ?_, ?_⟩
      · rw [hser' (k - 1) (by omega)]
        simp only [beq_iff_eq]
        omega
      · intro j hj
        rw [hser' j (by omega)]
        simp only [beq_iff_eq]
        omega
    refine ⟨renumStudentsAux 1 (l.eraseIdx (k - 1)), ?_, ?_, ?_, ?_⟩
    · unfold deleteStudentFrom
      rw [hfind]
    · rw [renumStudentsAux_length, List.length_eraseIdx_of_lt (by omega)]
      omega
    · rw [renumStudentsAux_serials, renumStudentsAux_length]
    · exact renumStudentsAux_strip 1 _
  · intro l k hk1 hk2 hser
    have hser' : ∀ i (h : i < l.length), l[i].cid = (i : ℤ) + 1 := by
      intro i h
      have h1 : (l.map (fun s => s.cid))[i]? =
          ((List.range l.length).map (fun j : ℕ => (j : ℤ) + 1))[i]? := by
        rw [hser]
      rw [List.getElem?_map, List.getElem?_map, List.getElem?_eq_getElem h,
        List.getElem?_range h] at h1
      simpa using h1
    have hfind : l.findIdx? (fun s => s.cid == (k : ℤ)) = some (k - 1) := by
      rw [List.findIdx?_eq_some_iff_getElem]
      refine ⟨by omega, ?_, ?_⟩
      · rw [hser' (k - 1) (by omega)]
        simp only [beq_iff_eq]
        omega
      · intro j hj
        rw [hser' j (by omega)]
        simp only [beq_iff_eq]
        omega
    refine ⟨renumSponsorsAux 1 (l.eraseIdx (k - 1)), ?_, ?_, ?_, ?_⟩
    · unfold deleteSponsorFrom
      rw [hfind]
    · rw [renumSponsorsAux_length, List.length_eraseIdx_of_lt (by omega)]
      omega
    · rw [renumSponsorsAux_cids, renumSponsorsAux_length]
    · exact renumSponsorsAux_strip 1 _

/-- Witness for C5: deleting serial 2 (respectively CID 2) from the
three-entry lists. -/
theorem c5_delete_renumbers_witness :
    (∃ l', deleteStudentFrom c5StudentList ((2 : ℕ) : ℤ) = some l' ∧
        l'.length + 1 = c5StudentList.length ∧
        l'.map (fun s => s.serial_number) =
          (List.range l'.length).map (fun i : ℕ => (i : ℤ) + 1) ∧
        l'.map stripStudent = (c5StudentList.eraseIdx (2 - 1)).map stripStudent) ∧
      (∃ l', deleteSponsorFrom c5SponsorList ((2 : ℕ) : ℤ) = some l' ∧
        l'.length + 1 = c5SponsorList.length ∧
        l'.map (fun s => s.cid) =
          (List.range l'.length).map (fun i : ℕ => (i : ℤ) + 1) ∧
        l'.map stripSponsor = (c5SponsorList.eraseIdx (2 - 1)).map stripSponsor) :=
  ⟨c5_delete_renumbers.1 c5StudentList 2 (by decide) (by decide) (by decide),
    c5_delete_renumbers.2 c5SponsorList 2 (by decide) (by decide) (by decide)⟩

/-! ### Claim C6 -/

/-- C6: an add-sponsor request whose `full_name` matches no student of the
program is never saved — the route rejects it with a 400 (or, on malformed
datasets, fails before reaching the save), so no database is persisted and
the stored dataset is untouched. -/
theorem c6_add_sponsor_unknown_student (db : Database) (prog : String) (req : SponsorReq)
    (h : ∀ s ∈ dbProgramStudents db prog, s.full_name ≠ req.full_name) :
    (addSponsorRoute db prog req).isSaved = false := by
  unfold addSponsorRoute
  cases h1 : db.sponsorship_registry with
  | none => rfl
  | some regs =>
    simp only []
    split
    · rfl
    · rename_i ss _
      cases h2 : db.sponsorship_programs with
      | none => rfl
      | some progs =>
        have hany : (programStudents progs prog).any
            (fun s => s.full_name == req.full_name) = false := by
          rw [List.any_eq_false]
          intro s hs
          simp only [beq_iff_eq]
          refine h s ?_
          unfold dbProgramStudents
          rw [h2]
          exact hs
        simp [hany, AddSponsorResult.isSaved]

/-- Witness for C6: the concrete dataset with a single student `"A"` and a
request naming `"Nobody"`. -/
theorem c6_add_sponsor_unknown_student_witness :
    (∀ s ∈ dbProgramStudents c6Db "CH", s.full_name ≠ c6Req.full_name) ∧
      (addSponsorRoute c6Db "CH" c6Req).isSaved = false :=
  ⟨by decide, c6_add_sponsor_unknown_student c6Db "CH" c6Req (by decide)⟩

/-! ### Claim C10 -/

theorem foldl_max_le (xs : List ℤ) : ∀ a x : ℤ, (x = a ∨ x ∈ xs) →
    x ≤ xs.foldl max a := by
  induction xs with
  | nil =>
    intro a x hx
    rcases hx with rfl | h
    · exact le_refl x
    · cases h
  | cons y ys ih =>
    intro a x hx
    rw [List.foldl_cons]
    rcases hx with rfl | h
    · exact le_trans (le_max_left x y) (ih (max x y) (max x y) (Or.inl rfl))
    · rcases List.mem_cons.mp h with rfl | h
      · exact le_trans (le_max_right a x) (ih (max a x) (max a x) (Or.inl rfl))
      · exact ih (max a y) x (Or.inr h)

theorem newExpenseId_gt {l : List Expense} : ∀ e ∈ l, e.id < newExpenseId l := by
  intro e he
  cases l with
  | nil => cases he
  | cons e0 rest =>
    have hred : newExpenseId (e0 :: rest) = (rest.map (fun x => x.id)).foldl max e0.id + 1 := rfl
    rw [hred]
    rcases List.mem_cons.mp he with rfl | h
    · have := foldl_max_le (rest.map (fun x => x.id)) e.id e.id (Or.inl rfl)
      omega
    · have := foldl_max_le (rest.map (fun x => x.id)) e0.id e.id
        (Or.inr (List.mem_map_of_mem (fun x => x.id) h))
      omega

theorem expenseIds_applyExpOp_nodup {l : List Expense} (op : ExpOp)
    (h : (expenseIds l).Nodup) : (expenseIds (applyExpOp l op)).Nodup := by
  cases op with
  | add d s de c a cu =>
    show (expenseIds (addExpense l
      { id := none, date := d, student := s, description := de,
        category := c, amount := a, currency := cu })).Nodup
    unfold addExpense expenseIds
    simp only [List.map_append, List.map_cons, List.map_nil]
    rw [List.nodup_append]
    refine ⟨h, List.nodup_singleton _, ?_⟩
    intro x hx hx'
    simp at hx'
    have hlt : x < newExpenseId l := by
      rcases List.mem_map.mp hx with ⟨e, he, rfl⟩
      exact newExpenseId_gt e he
    rw [hx'] at hlt
    exact lt_irrefl _ hlt
  | del k =>
    show (expenseIds ((deleteExpense l k).getD l)).Nodup
    unfold deleteExpense
    cases hf : l.findIdx? (fun e => e.id == k) with
    | none => exact h
    | some i =>
      simp only [Option.map_some', Option.getD_some]
      exact List.Nodup.sublist (List.Sublist.map _ (List.eraseIdx_sublist l i)) h

/-- C10: expense ids are auto-assigned as `max + 1` (1 on an empty list),
deletion splices without renumbering, and therefore any sequence of
(auto-id) adds and deletes starting from the empty list keeps all expense
ids pairwise distinct — while, unlike student serials and sponsor CIDs,
the surviving ids are not renumbered to `1..N` (three adds and a delete
leave ids `[1, 3]`). -/
theorem c10_expense_ids :
    (∀ ops : List ExpOp, (expenseIds (applyExpOps [] ops)).Nodup) ∧
      (∀ (l : List Expense) (r : ExpenseReq), r.id = none →
        expenseIds (addExpense l r) = expenseIds l ++ [newExpenseId l]) ∧
      (∀ (l : List Expense) (k : ℤ) (i : ℕ),
        l.findIdx? (fun e => e.id == k) = some i →
        deleteExpense l k = some (l.eraseIdx i)) ∧
      expenseIds (applyExpOps []
        [ExpOp.add none none none none none none,
         ExpOp.add none none none none none none,
         ExpOp.add none none none none none none,
         ExpOp.del 2]) = [1, 3] := by
  refine ⟨?_, ?_, ?_, by decide⟩
  · have hgen : ∀ (ops : List ExpOp) (l : List Expense), (expenseIds l).Nodup →
        (expenseIds (applyExpOps l ops)).Nodup := by
      intro ops
      induction ops with
      | nil => intro l h; exact h
      | cons op rest ih =>
        intro l h
        exact ih (applyExpOp l op) (expenseIds_applyExpOp_nodup op h)
    intro ops
    exact hgen ops [] List.nodup_nil
  · intro l r hr
    unfold addExpense expenseIds
    rw [hr]
    simp
  · intro l k i hf
    unfold deleteExpense
    rw [hf]
    rfl

/-- Witness for C10: the auto-id add on the empty list and the delete of
id 2 from the two-expense list. -/
theorem c10_expense_ids_witness :
    expenseIds (addExpense [] c10Req) = expenseIds [] ++ [newExpenseId []] ∧
      deleteExpense c10List 2 = some (c10List.eraseIdx 1) :=
  ⟨c10_expense_ids.2.1 [] c10Req rfl, c10_expense_ids.2.2.1 c10List 2 1 rfl⟩

/-! ### Claim C3 -/

theorem processRegistry_students_none {r : Registry} (h : r.students = none) :
    processRegistry r = r := by
  unfold processRegistry
  rw [h]

theorem processRegistry_students_some {r : Registry} {ss : List Sponsor}
    (h : r.students = some ss) :
    processRegistry r =
      { r with metadata := some ⟨ss.length, (ss.filter isActiveSponsor).length,
          (ss.filter isInactiveSponsor).length, registryFunding ss⟩ } := by
  unfold processRegistry
  rw [h]

theorem isActiveSponsor_iff {s : Sponsor} :
    isActiveSponsor s = true ↔
      (s.sponsorship_status = some "active" ∨ s.sponsorship_status = none ∨
        s.sponsorship_status = some "") := by
  unfold isActiveSponsor
  cases hst : s.sponsorship_status with
  | none => simp
  | some st =>
    simp only [Bool.or_eq_true, beq_iff_eq]
    constructor
    · rintro (h | h)
      · exact Or.inl (by rw [h])
      · exact Or.inr (Or.inr (by rw [h]))
    · rintro (h | h | h)
      · exact Or.inl (Option.some.inj h)
      · cases h
      · exact Or.inr (Option.some.inj h)

unseal Rat.add Rat.mul Rat.inv Rat.sub in
/-- C3 counterexample: a sponsor whose `sponsorship_status` is the empty
string is neither `'active'` nor unset, yet the code counts its amount —
the recalculated `total_monthly_funding` is 10 while the claim's sum over
exactly the `'active'`-or-unset sponsors is 0. -/
theorem c3_counterexample :
    c3FundingOf c3Db = some 10 ∧
      ((c3Sponsors.filter (fun s => decide (s.sponsorship_status = some "active" ∨
          s.sponsorship_status = none))).map (fun s => parseFloatOr0 s.amount)).sum = 0 := by
  exact ⟨by decide, by decide⟩

/-- C3 as amended: after a successful `recalculateAllMetadata`, every
registry entry that has a students array has
`total_monthly_funding = Σ parseFloat(amount) || 0` over exactly those
sponsors whose `sponsorship_status` is `'active'`, unset, or the (falsy)
empty string; `'inactive'` and all other truthy statuses contribute
nothing. -/
theorem c3_total_monthly_funding_amended :
    ∀ (db db' : Database), recalculateAllMetadata db = some db' →
    ∀ regs', db'.sponsorship_registry = some regs' →
    ∀ p ∈ regs', ∀ ss, p.2.students = some ss →
    ∃ m, p.2.metadata = some m ∧
      m.total_monthly_funding =
        ((ss.filter (fun s => decide (s.sponsorship_status = some "active" ∨
            s.sponsorship_status = none ∨ s.sponsorship_status = some ""))).map
          (fun s => parseFloatOr0 s.amount)).sum := by
  intro db db' hdb regs' hregs' p hp ss hss
  unfold recalculateAllMetadata at hdb
  cases hprogs : db.sponsorship_programs with
  | none => rw [hprogs] at hdb; cases hdb
  | some progs =>
    cases hregs : db.sponsorship_registry with
    | none => rw [hprogs, hregs] at hdb; cases hdb
    | some regs =>
      cases hmeta : db.metadata with
      | none => rw [hprogs, hregs, hmeta] at hdb; cases hdb
      | some meta =>
        rw [hprogs, hregs, hmeta] at hdb
        have hdb' : db'.sponsorship_registry =
            some (regs.map (fun q => (q.1, processRegistry q.2))) := by
          rw [← Option.some.inj hdb]
        rw [hdb'] at hregs'
        have hregs'' := Option.some.inj hregs'
        subst hregs''
        rcases List.mem_map.mp hp with ⟨q, hq, hqp⟩
        subst hqp
        cases hqs : q.2.students with
        | none =>
          rw [show (q.1, processRegistry q.2).2 = processRegistry q.2 from rfl,
            processRegistry_students_none hqs, hqs] at hss
          cases hss
        | some ss0 =>
          rw [show (q.1, processRegistry q.2).2 = processRegistry q.2 from rfl,
            processRegistry_students_some hqs] at hss ⊢
          have hss0 : ss0 = ss := by
            have h2 : q.2.students = some ss := by simpa using hss
            rw [hqs] at h2
            exact Option.some.inj h2
          subst hss0
          refine ⟨_, rfl, ?_⟩
          show registryFunding ss0 = _
          unfold registryFunding
          have hfilter : ss0.filter isActiveSponsor =
              ss0.filter (fun s => decide (s.sponsorship_status = some "active" ∨
                s.sponsorship_status = none ∨ s.sponsorship_status = some "")) := by
            refine List.filter_congr ?_
            intro s _
            rw [Bool.eq_iff_iff, isActiveSponsor_iff]
            simp
          rw [hfilter]
          rfl

unseal Rat.add Rat.mul Rat.inv Rat.sub in
/-- Witness for C3 (amended): the empty-string-status sponsor's registry
after recalculating the concrete dataset. -/
theorem c3_total_monthly_funding_amended_witness :
    recalculateAllMetadata c3Db = some c3DbR ∧
      (∃ m, c3RegR.metadata = some m ∧
        m.total_monthly_funding =
          ((c3Sponsors.filter (fun s => decide (s.sponsorship_status = some "active" ∨
              s.sponsorship_status = none ∨ s.sponsorship_status = some ""))).map
            (fun s => parseFloatOr0 s.amount)).sum) :=
  ⟨by decide, c3_total_monthly_funding_amended c3Db c3DbR (by decide) [("CH", c3RegR)]
    (by decide) ("CH", c3RegR) (by decide) c3Sponsors (by decide)⟩

/-! ### Claim C8 -/

theorem processRegistry_students {r : Registry} :
    (processRegistry r).students = r.students := by
  cases h : r.students with
  | none => rw [processRegistry_students_none h]; exact h
  | some ss => rw [processRegistry_students_some h]; exact h

theorem processProgram_students_none {p : Program} (h : p.students = none) :
    processProgram p = p := by
  unfold processProgram
  rw [h]

theorem processProgram_students_some {p : Program} {studs : List Student}
    (h : p.students = some studs) :
    processProgram p =
      { p with
        students := some (studs.map updStudent)
        metadata := some ⟨studs.length, sponsorshipTypes studs,
          (studs.map studentMonthly).sum, (studs.map studentMonthly).sum / EXCHANGE_RATE⟩ } := by
  unfold processProgram
  rw [h]

theorem processProgram_name {p : Program} :
    (processProgram p).program_name = p.program_name := by
  cases h : p.students with
  | none => rw [processProgram_students_none h]
  | some studs => rw [processProgram_students_some h]


theorem processProgram_strip {p : Program} :
    (processProgram p).students.map (fun ss => ss.map stripFinancial) =
      p.students.map (fun ss => ss.map stripFinancial) := by
  cases h : p.students with
  | none => rw [processProgram_students_none h, h]
  | some studs =>
    rw [processProgram_students_some h]
    show some ((studs.map updStudent).map stripFinancial) = some (studs.map stripFinancial)
    rw [List.map_map]
    exact congrArg some (List.map_congr_left fun s _ => rfl)

theorem processProgram_financial {p : Program} :
    (processProgram p).students.map (fun ss => ss.map (fun s => s.financial_data)) =
      p.students.map (fun ss => ss.map (fun s =>
        some (mergeRec (s.financial_data.getD [])
          (calculateStudentFinancials (s.financial_data.getD []))))) := by
  cases h : p.students with
  | none =>
    rw [processProgram_students_none h, h]
    rfl
  | some studs =>
    rw [processProgram_students_some h]
    show some ((studs.map updStudent).map (fun s => s.financial_data)) =
      some (studs.map (fun s => some (mergeRec (s.financial_data.getD [])
        (calculateStudentFinancials (s.financial_data.getD [])))))
    rw [List.map_map]
    exact congrArg some (List.map_congr_left fun s _ => rfl)

/-- C8 as amended: `recalculateAllMetadata` leaves every raw field intact —
daily expenses, every sponsor record, program names, student identity
fields (serial, name, package, notes), and the raw top-level metadata —
and overwrites exactly the derived metadata objects and each student's
`financial_data`, which becomes the spread-merge of the raw record with
its fully-normalized recalculation (so raw formula strings and numeric
strings inside `financial_data` are replaced by numbers). -/
theorem c8_frame_amended :
    ∀ db db', recalculateAllMetadata db = some db' → FramePreserved db db' := by
  intro db db' hdb
  unfold recalculateAllMetadata at hdb
  cases hprogs : db.sponsorship_programs with
  | none => rw [hprogs] at hdb; cases hdb
  | some progs =>
    cases hregs : db.sponsorship_registry with
    | none => rw [hprogs, hregs] at hdb; cases hdb
    | some regs =>
      cases hmeta : db.metadata with
      | none => rw [hprogs, hregs, hmeta] at hdb; cases hdb
      | some meta =>
        rw [hprogs, hregs, hmeta] at hdb
        have hdb' := (Option.some.inj hdb).symm
        subst hdb'
        refine ⟨rfl, ?_, ?_, ?_, ?_, ?_⟩
        · rw [hregs]
          show some ((regs.map (fun q => (q.1, processRegistry q.2))).map
              (fun q => (q.1, q.2.students))) =
            some (regs.map (fun q => (q.1, q.2.students)))
          rw [List.map_map]
          refine congrArg some (List.map_congr_left fun q _ => ?_)
          show (q.1, (processRegistry q.2).students) = (q.1, q.2.students)
          rw [processRegistry_students]
        · rw [hprogs]
          show some ((progs.map (fun q => (q.1, processProgram q.2))).map
              (fun q => (q.1, q.2.program_name))) =
            some (progs.map (fun q => (q.1, q.2.program_name)))
          rw [List.map_map]
          refine congrArg some (List.map_congr_left fun q _ => ?_)
          show (q.1, (processProgram q.2).program_name) = (q.1, q.2.program_name)
          rw [processProgram_name]
        · rw [hprogs]
          show some ((progs.map (fun q => (q.1, processProgram q.2))).map
              (fun q => q.2.students.map (fun ss => ss.map stripFinancial))) =
            some (progs.map (fun q => q.2.students.map (fun ss => ss.map stripFinancial)))
          rw [List.map_map]
          refine congrArg some (List.map_congr_left fun q _ => ?_)
          show (processProgram q.2).students.map (fun ss => ss.map stripFinancial) =
            q.2.students.map (fun ss => ss.map stripFinancial)
          rw [processProgram_strip]
        · rw [hmeta]
          rfl
        · rw [hprogs]
          show some ((progs.map (fun q => (q.1, processProgram q.2))).map
              (fun q => q.2.students.map (fun ss => ss.map (fun s => s.financial_data)))) =
            some (progs.map (fun q => q.2.students.map (fun ss => ss.map (fun s =>
              some (mergeRec (s.financial_data.getD [])
                (calculateStudentFinancials (s.financial_data.getD [])))))))
          rw [List.map_map]
          refine congrArg some (List.map_congr_left fun q _ => ?_)
          show (processProgram q.2).students.map (fun ss => ss.map (fun s => s.financial_data)) =
            q.2.students.map (fun ss => ss.map (fun s =>
              some (mergeRec (s.financial_data.getD [])
                (calculateStudentFinancials (s.financial_data.getD [])))))
          rw [processProgram_financial]

unseal Rat.add Rat.mul Rat.inv Rat.sub in
/-- C8 counterexample: recalculation replaces the raw numeric string
`"90000"` stored in a student's `food` field by the number 90000, so the
raw financial input fields are not identical before and after. -/
theorem c8_counterexample :
    (recalculateAllMetadata c8Db).map c8FoodVal = some (some (JsVal.num 90000)) ∧
      c8FoodVal c8Db = some (JsVal.str "90000") := by
  exact ⟨by decide, by decide⟩

unseal Rat.add Rat.mul Rat.inv Rat.sub in
/-- Witness for C8 (amended): the frame of the recalculation of the
concrete sponsor dataset. -/
theorem c8_frame_amended_witness : FramePreserved c3Db c3DbR :=
  c8_frame_amended c3Db c3DbR (by decide)

/-! ### Claim C2: idempotence of the recalculation -/

theorem normalizeStep_makes_num {r : FinData} {k : String} :
    ∃ q, findVal k (normalizeStep r k) = some (JsVal.num q) := by
  unfold normalizeStep
  cases hv : findVal k r with
  | none => exact ⟨0, findVal_setField_self⟩
  | some v =>
    cases v with
    | num q => exact ⟨q, hv⟩
    | null => exact ⟨0, findVal_setField_self⟩
    | str s =>
      cases hs : s.data with
      | nil =>
        refine ⟨(parseFloatPrefix s.data).getD 0, ?_⟩
        simp only [hs]
        exact findVal_setField_self
      | cons c cs =>
        by_cases hc : c = '='
        · refine ⟨evaluateFormula s r, ?_⟩
          simp only [hs, if_pos hc]
          exact findVal_setField_self
        · refine ⟨(parseFloatPrefix s.data).getD 0, ?_⟩
          simp only [hs, if_neg hc]
          exact findVal_setField_self

theorem foldl_normalizeStep_preserves {L : List String} :
    ∀ (s : FinData) (k : String), k ∉ L →
      findVal k (L.foldl normalizeStep s) = findVal k s := by
  induction L with
  | nil => intro s k _; rfl
  | cons k0 L' ih =>
    intro s k hk
    rw [List.mem_cons, not_or] at hk
    rw [List.foldl_cons, ih (normalizeStep s k0) k hk.2]
    rcases @normalizeStep_eq_or_set s k0 with h | ⟨q, h⟩
    · rw [h]
    · rw [h, findVal_setField_ne (fun he => hk.1 he.symm)]

theorem foldl_normalizeStep_nums {L : List String} :
    ∀ s : FinData, L.Nodup → (∀ k ∈ L, k ∈ keysOf s) →
      ∀ k ∈ L, ∃ q, findVal k (L.foldl normalizeStep s) = some (JsVal.num q) := by
  induction L with
  | nil => intro s _ _ k hk; cases hk
  | cons k0 L' ih =>
    intro s hnd hmem k hk
    rw [List.nodup_cons] at hnd
    rw [List.foldl_cons]
    rcases List.mem_cons.mp hk with rfl | hk'
    · rw [foldl_normalizeStep_preserves (normalizeStep s k) k hnd.1]
      exact normalizeStep_makes_num
    · refine ih (normalizeStep s k0) hnd.2 ?_ k hk'
      intro x hx
      rw [keysOf_normalizeStep (hmem k0 (List.mem_cons_self k0 L'))]
      exact hmem x (List.mem_cons_of_mem k0 hx)

theorem allNum_normalizeRec {r : FinData} (hWf : WfFinData r) :
    allNum (normalizeRec r) = true := by
  rw [allNum, List.all_eq_true]
  intro p hp
  have hnd : (keysOf (normalizeRec r)).Nodup := by
    rw [keysOf_normalizeRec]; exact hWf
  have hfv := findVal_of_nodup_mem hnd hp
  have hkey : p.1 ∈ keysOf r := by
    rw [← @keysOf_normalizeRec r]
    exact List.mem_map_of_mem _ hp
  obtain ⟨q, hq⟩ :=
    @foldl_normalizeStep_nums (keysOf r) r hWf (fun k hk => hk) p.1 hkey
  rw [show normalizeRec r = (keysOf r).foldl normalizeStep r from rfl] at hfv
  rw [hfv] at hq
  rw [Option.some.inj hq]
  rfl

theorem allNum_setField_num {r : FinData} {k : String} {q : ℚ}
    (h : allNum r = true) : allNum (setField r k (JsVal.num q)) = true := by
  induction r with
  | nil => rfl
  | cons p rest ih =>
    rw [allNum, List.all_cons, Bool.and_eq_true] at h
    rw [setField_cons]
    by_cases hp : p.1 = k
    · rw [if_pos hp, allNum, List.all_cons, Bool.and_eq_true]
      exact ⟨rfl, h.2⟩
    · rw [if_neg hp, allNum, List.all_cons, Bool.and_eq_true]
      exact ⟨h.1, ih h.2⟩

theorem allNum_calc {fd : FinData} (hWf : WfFinData fd) :
    allNum (calculateStudentFinancials fd) = true := by
  rw [calc_eq]
  exact allNum_setField_num (allNum_setField_num (allNum_setField_num
    (allNum_setField_num (allNum_setField_num (allNum_normalizeRec hWf)))))

theorem keysOf_setField_exists {r : FinData} {k : String} {v : JsVal} :
    ∃ e, keysOf (setField r k v) = keysOf r ++ e := by
  cases hf : findVal k r with
  | none => exact ⟨[k], keysOf_setField_of_none hf⟩
  | some w =>
    refine ⟨[], ?_⟩
    rw [keysOf_setField_of_isSome (by rw [hf]; rfl), List.append_nil]

theorem keysOf_setField_extend {r r' : FinData}
    (h : ∃ e, keysOf r' = keysOf r ++ e) (k : String) (v : JsVal) :
    ∃ e, keysOf (setField r' k v) = keysOf r ++ e := by
  obtain ⟨e, he⟩ := h
  obtain ⟨e2, he2⟩ := @keysOf_setField_exists r' k v
  exact ⟨e ++ e2, by rw [he2, he, List.append_assoc]⟩

theorem keysOf_calc_exists (fd : FinData) :
    ∃ e, keysOf (calculateStudentFinancials fd) = keysOf fd ++ e := by
  rw [calc_eq]
  refine keysOf_setField_extend (keysOf_setField_extend (keysOf_setField_extend
    (keysOf_setField_extend (keysOf_setField_extend ⟨[], ?_⟩ _ _) _ _) _ _) _ _) _ _
  rw [keysOf_normalizeRec, List.append_nil]

theorem nodup_keysOf_calc {fd : FinData} (hWf : WfFinData fd) :
    (keysOf (calculateStudentFinancials fd)).Nodup := by
  rw [calc_eq]
  refine nodup_keysOf_setField (nodup_keysOf_setField (nodup_keysOf_setField
    (nodup_keysOf_setField (nodup_keysOf_setField ?_))))
  rw [keysOf_normalizeRec]
  exact hWf

theorem mergeRec_of_keys_append (a : FinData) :
    ∀ g : FinData, (∃ ex, keysOf g = keysOf a ++ ex) → (keysOf g).Nodup →
      mergeRec a g = g := by
  induction a with
  | nil =>
    intro g _ _
    unfold mergeRec
    simp only [List.map_nil, List.nil_append]
    refine List.filter_eq_self.mpr fun p _ => ?_
    rw [findVal_nil]
    rfl
  | cons x a' ih =>
    intro g hex hnd
    obtain ⟨ex, hk⟩ := hex
    cases g with
    | nil => simp [keysOf_nil, keysOf_cons] at hk
    | cons y g' =>
      rw [keysOf_cons, keysOf_cons, List.cons_append, List.cons_eq_cons] at hk
      obtain ⟨h1, h2⟩ := hk
      rw [keysOf_cons, List.nodup_cons] at hnd
      have hhead : (x.1, (findVal x.1 (y :: g')).getD x.2) = y := by
        rw [findVal_cons, if_pos h1, ← h1]
        exact rfl
      have hmap : a'.map (fun p => (p.1, (findVal p.1 (y :: g')).getD p.2)) =
          a'.map (fun p => (p.1, (findVal p.1 g').getD p.2)) := by
        refine List.map_congr_left fun p hp => ?_
        have hpk : p.1 ∈ keysOf g' := by
          rw [h2]
          exact List.mem_append_left _ (List.mem_map_of_mem _ hp)
        have hne : y.1 ≠ p.1 := fun he => hnd.1 (he ▸ hpk)
        simp only [findVal_cons, if_neg hne]
      have hPy : (findVal y.1 (x :: a')).isNone = false := by
        rw [findVal_cons, if_pos h1.symm]
        rfl
      have hfilt : g'.filter (fun p => (findVal p.1 (x :: a')).isNone) =
          g'.filter (fun p => (findVal p.1 a').isNone) := by
        refine List.filter_congr fun p hp => ?_
        have hpk : p.1 ∈ keysOf g' := List.mem_map_of_mem _ hp
        have hne : x.1 ≠ p.1 := by
          rw [← h1]
          exact fun he => hnd.1 (he ▸ hpk)
        simp only [findVal_cons, if_neg hne]
      unfold mergeRec
      rw [List.map_cons, hhead, hmap, List.filter_cons]
      simp only [hPy, Bool.false_eq_true, if_false]
      rw [hfilt, List.cons_append]
      exact congrArg (List.cons y) (ih g' ⟨ex, h2⟩ hnd.2)

theorem mergeRec_self {a : FinData} (h : (keysOf a).Nodup) : mergeRec a a = a :=
  mergeRec_of_keys_append a a ⟨[], (List.append_nil _).symm⟩ h

theorem mergeRec_calc {fd : FinData} (hWf : WfFinData fd) :
    mergeRec fd (calculateStudentFinancials fd) = calculateStudentFinancials fd :=
  mergeRec_of_keys_append fd _ (keysOf_calc_exists fd) (nodup_keysOf_calc hWf)

theorem getQ_calc_of_not_derived (fd : FinData) (k : String)
    (h1 : k ≠ "monthly_output_ugx") (h2 : k ≠ "monthly_output_euro")
    (h3 : k ≠ "cash_received_ugx") (h4 : k ≠ "plus_minus_diff_ugx")
    (h5 : k ≠ "plus_minus_diff_euro") :
    getQ (calculateStudentFinancials fd) k = getQ (normalizeRec fd) k := by
  rw [calc_eq, getQ_setField_ne (Ne.symm h5), getQ_setField_ne (Ne.symm h4),
    getQ_setField_ne (Ne.symm h3), getQ_setField_ne (Ne.symm h2),
    getQ_setField_ne (Ne.symm h1)]

theorem monthlyOf_calc (fd : FinData) :
    monthlyOf (calculateStudentFinancials fd) = monthlyOf (normalizeRec fd) := by
  unfold monthlyOf
  rw [getQ_calc_of_not_derived fd "termly_school_fees" (by decide) (by decide)
      (by decide) (by decide) (by decide),
    getQ_calc_of_not_derived fd "direct_spending_school_fees_ugx_monthly" (by decide)
      (by decide) (by decide) (by decide) (by decide),
    getQ_calc_of_not_derived fd "food" (by decide) (by decide) (by decide)
      (by decide) (by decide),
    getQ_calc_of_not_derived fd "average_medical" (by decide) (by decide) (by decide)
      (by decide) (by decide),
    getQ_calc_of_not_derived fd "school_personal_requirements_transport" (by decide)
      (by decide) (by decide) (by decide) (by decide),
    getQ_calc_of_not_derived fd "admin_utilities" (by decide) (by decide) (by decide)
      (by decide) (by decide)]

theorem findVal_calc_euro (fd : FinData) :
    findVal "monthly_output_euro" (calculateStudentFinancials fd) =
      some (JsVal.num (monthlyOf (normalizeRec fd) / EXCHANGE_RATE)) := by
  rw [calc_eq, findVal_setField_ne (by decide), findVal_setField_ne (by decide),
    findVal_setField_ne (by decide), findVal_setField_self]

theorem findVal_calc_diff_euro (fd : FinData) :
    findVal "plus_minus_diff_euro" (calculateStudentFinancials fd) =
      some (JsVal.num ((getQ (normalizeRec fd) "cash_received_euro" * EXCHANGE_RATE -
        monthlyOf (normalizeRec fd)) / EXCHANGE_RATE)) := by
  rw [calc_eq, findVal_setField_self]

theorem calc_idem {fd : FinData} (hWf : WfFinData fd) :
    calculateStudentFinancials (calculateStudentFinancials fd) =
      calculateStudentFinancials fd := by
  have hAll : allNum (calculateStudentFinancials fd) = true := allNum_calc hWf
  rw [calc_eq (calculateStudentFinancials fd), normalizeRec_of_allNum hAll,
    monthlyOf_calc,
    getQ_calc_of_not_derived fd "cash_received_euro" (by decide) (by decide)
      (by decide) (by decide) (by decide),
    setField_of_findVal_eq (findVal_calc_monthly fd),
    setField_of_findVal_eq (findVal_calc_euro fd),
    setField_of_findVal_eq (findVal_calc_cash fd),
    setField_of_findVal_eq (findVal_calc_diff fd),
    setField_of_findVal_eq (findVal_calc_diff_euro fd)]

theorem studentMonthly_updStudent {s : Student}
    (hWf : WfFinData (s.financial_data.getD [])) :
    studentMonthly (updStudent s) = studentMonthly s := by
  show getQ (calculateStudentFinancials (mergeRec (s.financial_data.getD [])
      (calculateStudentFinancials (s.financial_data.getD [])))) "monthly_output_ugx" =
    getQ (calculateStudentFinancials (s.financial_data.getD [])) "monthly_output_ugx"
  rw [mergeRec_calc hWf, calc_idem hWf]

theorem updStudent_idem {s : Student}
    (hWf : WfFinData (s.financial_data.getD [])) :
    updStudent (updStudent s) = updStudent s := by
  have hX : mergeRec (mergeRec (s.financial_data.getD [])
        (calculateStudentFinancials (s.financial_data.getD [])))
      (calculateStudentFinancials (mergeRec (s.financial_data.getD [])
        (calculateStudentFinancials (s.financial_data.getD [])))) =
      mergeRec (s.financial_data.getD [])
        (calculateStudentFinancials (s.financial_data.getD [])) := by
    rw [mergeRec_calc hWf, calc_idem hWf, mergeRec_self (nodup_keysOf_calc hWf)]
  show ({ s with financial_data := some (mergeRec (mergeRec (s.financial_data.getD [])
      (calculateStudentFinancials (s.financial_data.getD [])))
      (calculateStudentFinancials (mergeRec (s.financial_data.getD [])
        (calculateStudentFinancials (s.financial_data.getD []))))) } : Student) =
    { s with financial_data := some (mergeRec (s.financial_data.getD [])
      (calculateStudentFinancials (s.financial_data.getD []))) }
  rw [hX]

theorem processProgram_idem {p : Program}
    (hWf : ∀ s ∈ p.students.getD [], WfFinData (s.financial_data.getD [])) :
    processProgram (processProgram p) = processProgram p := by
  cases h : p.students with
  | none => rw [processProgram_students_none h, processProgram_students_none h]
  | some studs =>
    have hW : ∀ s ∈ studs, WfFinData (s.financial_data.getD []) := by
      intro s hs
      refine hWf s ?_
      rw [h]
      exact hs
    rw [processProgram_students_some h]
    have h2 : ({ p with
        students := some (studs.map updStudent)
        metadata := some ⟨studs.length, sponsorshipTypes studs,
          (studs.map studentMonthly).sum,
          (studs.map studentMonthly).sum / EXCHANGE_RATE⟩ } : Program).students =
        some (studs.map updStudent) := rfl
    rw [processProgram_students_some h2]
    have hmap : (studs.map updStudent).map updStudent = studs.map updStudent := by
      rw [List.map_map]
      exact List.map_congr_left fun s hs => updStudent_idem (hW s hs)
    have hlen : (studs.map updStudent).length = studs.length := by simp
    have htypes : sponsorshipTypes (studs.map updStudent) = sponsorshipTypes studs := by
      unfold sponsorshipTypes
      rw [List.map_map]
      exact congrArg (List.foldl histAdd []) (List.map_congr_left fun s _ => rfl)
    have hsum : (studs.map updStudent).map studentMonthly = studs.map studentMonthly := by
      rw [List.map_map]
      exact List.map_congr_left fun s hs => studentMonthly_updStudent (hW s hs)
    rw [hmap, hlen, htypes, hsum]

theorem processRegistry_idem {r : Registry} :
    processRegistry (processRegistry r) = processRegistry r := by
  cases h : r.students with
  | none => rw [processRegistry_students_none h, processRegistry_students_none h]
  | some ss =>
    rw [processRegistry_students_some h]
    have h2 : ({ r with metadata := some ⟨ss.length, (ss.filter isActiveSponsor).length,
        (ss.filter isInactiveSponsor).length, registryFunding ss⟩ } : Registry).students =
        some ss := h
    rw [processRegistry_students_some h2]

theorem programStudentCount_processProgram {p : Program} :
    programStudentCount (processProgram p) = programStudentCount p := by
  cases h : p.students with
  | none => rw [processProgram_students_none h]
  | some studs =>
    rw [processProgram_students_some h]
    show (studs.map updStudent).length = programStudentCount p
    unfold programStudentCount
    rw [h, List.length_map]

theorem registryActiveCount_processRegistry {r : Registry} :
    registryActiveCount (processRegistry r) = registryActiveCount r := by
  unfold registryActiveCount
  rw [processRegistry_students]

theorem registryFundingOf_processRegistry {r : Registry} :
    registryFundingOf (processRegistry r) = registryFundingOf r := by
  unfold registryFundingOf
  rw [processRegistry_students]

theorem recalc_eq {db : Database} {progs : List (String × Program)}
    {regs : List (String × Registry)} {meta : DbMeta}
    (hp : db.sponsorship_programs = some progs)
    (hr : db.sponsorship_registry = some regs)
    (hm : db.metadata = some meta) :
    recalculateAllMetadata db = some { db with
      sponsorship_programs := some (progs.map (fun p => (p.1, processProgram p.2)))
      sponsorship_registry := some (regs.map (fun p => (p.1, processRegistry p.2)))
      metadata := some { meta with programs_summary :=
        { total_students_across_all_programs :=
            (progs.map (fun p => programStudentCount p.2)).sum
          total_active_sponsorships := (regs.map (fun p => registryActiveCount p.2)).sum
          total_monthly_funding_euros := (regs.map (fun p => registryFundingOf p.2)).sum
          total_monthly_funding_ugx :=
            (regs.map (fun p => registryFundingOf p.2)).sum * EXCHANGE_RATE } } } := by
  unfold recalculateAllMetadata
  rw [hp, hr, hm]

/-- C2: `recalculateAllMetadata` is idempotent.  On every well-formed
dataset (financial-data records without duplicate keys) on which the first
recalculation succeeds, recalculating the result again returns it
bit-identically: all derived program metadata, registry metadata, the
programs summary and the per-student derived financial fields are fixed. -/
theorem c2_recalculate_idempotent (db db' : Database) (hWf : WfDatabase db)
    (h : recalculateAllMetadata db = some db') :
    recalculateAllMetadata db' = some db' := by
  cases hprogs : db.sponsorship_programs with
  | none =>
    cases hregs : db.sponsorship_registry <;> cases hmeta : db.metadata <;>
      (unfold recalculateAllMetadata at h; rw [hprogs, hregs, hmeta] at h; cases h)
  | some progs =>
  cases hregs : db.sponsorship_registry with
  | none =>
    cases hmeta : db.metadata <;>
      (unfold recalculateAllMetadata at h; rw [hprogs, hregs, hmeta] at h; cases h)
  | some regs =>
  cases hmeta : db.metadata with
  | none =>
    unfold recalculateAllMetadata at h
    rw [hprogs, hregs, hmeta] at h
    cases h
  | some meta =>
  obtain rfl := Option.some.inj ((recalc_eq hprogs hregs hmeta).symm.trans h)
  rw [recalc_eq rfl rfl rfl]
  refine congrArg some ?_
  have hWf' : ∀ q ∈ progs, ∀ s ∈ q.2.students.getD [],
      WfFinData (s.financial_data.getD []) := by
    intro q hq s hs
    refine hWf q ?_ s hs
    rw [hprogs]
    exact hq
  have hP2 : (progs.map (fun p => (p.1, processProgram p.2))).map
      (fun p => (p.1, processProgram p.2)) =
      progs.map (fun p => (p.1, processProgram p.2)) := by
    rw [List.map_map]
    refine List.map_congr_left fun q hq => ?_
    show (q.1, processProgram (processProgram q.2)) = (q.1, processProgram q.2)
    rw [processProgram_idem (hWf' q hq)]
  have hR2 : (regs.map (fun p => (p.1, processRegistry p.2))).map
      (fun p => (p.1, processRegistry p.2)) =
      regs.map (fun p => (p.1, processRegistry p.2)) := by
    rw [List.map_map]
    refine List.map_congr_left fun q _ => ?_
    show (q.1, processRegistry (processRegistry q.2)) = (q.1, processRegistry q.2)
    rw [processRegistry_idem]
  have hcount : (progs.map (fun p => (p.1, processProgram p.2))).map
      (fun p => programStudentCount p.2) =
      progs.map (fun p => programStudentCount p.2) := by
    rw [List.map_map]
    exact List.map_congr_left fun q _ => programStudentCount_processProgram
  have hact : (regs.map (fun p => (p.1, processRegistry p.2))).map
      (fun p => registryActiveCount p.2) =
      regs.map (fun p => registryActiveCount p.2) := by
    rw [List.map_map]
    exact List.map_congr_left fun q _ => registryActiveCount_processRegistry
  have hfund : (regs.map (fun p => (p.1, processRegistry p.2))).map
      (fun p => registryFundingOf p.2) =
      regs.map (fun p => registryFundingOf p.2) := by
    rw [List.map_map]
    exact List.map_congr_left fun q _ => registryFundingOf_processRegistry
  rw [hP2, hR2, hcount, hact, hfund]

unseal Rat.add Rat.mul Rat.inv Rat.sub in
/-- Witness for C2: the concrete one-student dataset in its recalculated
form is a fixed point of the recalculation. -/
theorem c2_recalculate_idempotent_witness :
    recalculateAllMetadata c8DbR = some c8DbR :=
  c2_recalculate_idempotent c8Db c8DbR (by decide) (by decide)

end SponsorSystem
